import Mathlib

/-!
# magSlideShowSource: the slide show sequencer

A shallow embedding of `example/src/magSlideShowSource.cpp` and the properties of
its sequencing, playback and resize logic.

Conventions of the embedding.

* A `std::shared_ptr<magSlide>` is a `SlideRef`: the identity of a slide object.
  The class `magSlide` is declared outside this source file; every call the show
  makes on a slide (`start`, `update`, the write of `isComplete`) is recorded in
  the `trace` of the state, and everything the show reads back from a slide (the
  events it raises while it is updated, the value of `isSlideComplete()`) is an
  argument of the operation that reads it.
* `ofNotifyEvent(slideshowWillLoopEvent, ..)` and
  `ofNotifyEvent(slideshowCompleteEvent, ..)` are recorded in the same trace.
* `ofGetElapsedTimeMillis()` is an argument of the operation that calls it.
* The C++ `int` members (`currentSlideIndex`, `direction`, the loop counters) are
  mathematical integers in `loopSwitch` and `playNextSlide`, which is what the
  source computes as long as no signed overflow occurs; `playNextSlideInt` adds
  the check that the sums stay within a 32-bit `int` and reports an overflow as
  `Fault.signedOverflow`. The slide count is
  taken to fit an `int`, so that `int num = slides.size()` is exact. The two
  `size_t` subtractions `slides.size()-1` and `slides.size()-2` wrap around in
  the source when the vector is too short; `sizeMinus` gives the `int` they store
  and `sizeMinus_eq_machine` checks it against the 64-bit/32-bit computation.
* Indexing `slides` outside `[0, slides.size())` is undefined behaviour in the
  source; the embedding reports it as `Fault.indexOutOfRange`.
* The loop of `update` over `activeSlides` walks the live vector; an enqueue made
  by a handler during the loop invalidates its iterators, which the embedding
  reports as `Fault.iteratorInvalidated`.
* The events a slide raises from within `start` are not followed: a slide that
  has just been started is not in state `BuildOut`, the only state for which the
  handler `slideStateChanged` does anything.
* The resize arithmetic of `addSlide` is carried out in exact rationals, with a
  division by zero having no value.
* What lies at `settings.slidesFolderPath` (whether it is a directory, and which
  of its files load as an image or a movie) is an argument of the set-up.
-/

namespace magSlideShow

/-- Identity of a slide object (the target of a `std::shared_ptr<magSlide>`). -/
abbrev SlideRef := Nat

/-- The loop policies of `magSlideShowSource::LoopType`. -/
inductive LoopType where
  | NONE
  | NORMAL
  | PING_PONG
  deriving DecidableEq

/-- The resize policies of `magSlide::ResizeOptions`. -/
inductive ResizeOptions where
  | NoResize
  | Native
  | Fit
  | FitProportionally
  | FillProportionally
  deriving DecidableEq

/-- Modelled from the spec: the enumeration `magSlide::SlideState`, declared in a
header that is not part of the source at hand. The show only ever compares a
slide state with `BuildOut`. -/
inductive SlideState where
  | Idle
  | BuildIn
  | Hold
  | BuildOut
  | Done
  deriving DecidableEq

/-- What the show does to the outside world: calls on slide objects and the two
notifications it emits. -/
inductive Effect where
  /-- The call `slide->start(startTime)` made by `enqueueSlide`. -/
  | start (slide : SlideRef) (startTime : Nat)
  /-- The call `slide->activeTransition->update(deltaTime)`. -/
  | transitionUpdate (slide : SlideRef) (deltaTime : Nat)
  /-- The call `slide->update(deltaTime)`. -/
  | slideUpdate (slide : SlideRef) (deltaTime : Nat)
  /-- The assignment `slide->isComplete = true` made by `slideComplete`. -/
  | setComplete (slide : SlideRef)
  /-- The notification `ofNotifyEvent(slideshowWillLoopEvent, args, this)`. -/
  | slideshowWillLoop
  /-- The notification `ofNotifyEvent(slideshowCompleteEvent, args, this)`. -/
  | slideshowComplete
  /-- The call `allocate(settings.width, settings.height)` on the frame buffer. -/
  | allocate (width height : Int)
  deriving DecidableEq

/-- The fields of `magSlideShowSource::Settings` that the sequencer, the resize
switch and the set-up of the show read. -/
structure Settings where
  width : Int
  height : Int
  loopType : LoopType
  numLoops : Int
  resizeOption : ResizeOptions
  slidesFolderPath : String
  slideshowFilePath : String
  deriving DecidableEq

/-- The members of `magSlideShowSource` that the modelled operations read or
write, together with the trace of effects. -/
structure State where
  settings : Settings
  slides : List SlideRef
  activeSlides : List SlideRef
  currentSlideIndex : Int
  direction : Int
  loopCount : Int
  isPlaying : Bool
  runningTime : Nat
  lastTime : Nat
  deltaTime : Nat
  trace : List Effect
  deriving DecidableEq

/-- Undefined behaviour of the source, made explicit. -/
inductive Fault where
  /-- The expression `slides[index]` with `index` outside `[0, size)`. -/
  | indexOutOfRange (index : Int) (size : Nat)
  /-- A `push_back` on `activeSlides` while the range-based `for` of `update` is
  walking it: the iterators of the loop are invalidated. -/
  | iteratorInvalidated
  /-- An `int` computation (`currentSlideIndex += direction`, `loopCount++`) whose
  result is not a value of `int`. -/
  | signedOverflow
  deriving DecidableEq

/-- Result of an operation that may run into undefined behaviour. -/
inductive Outcome where
  | ok (s : State)
  | fault (f : Fault)
  deriving DecidableEq

/-- Sequencing of fallible operations. -/
def Outcome.andThen (o : Outcome) (f : State → Outcome) : Outcome :=
  match o with
  | .ok s => f s
  | .fault e => .fault e

/-- Conversion of a `size_t` value to `int`: the low 32 bits, read in two's
complement. -/
def toInt32 (u : Nat) : Int :=
  if u % 2 ^ 32 < 2 ^ 31 then ((u % 2 ^ 32 : Nat) : Int) else ((u % 2 ^ 32 : Nat) : Int) - 2 ^ 32

/-- The `int` stored by `currentSlideIndex = slides.size()-k`. The subtraction is
carried out in `size_t`, where `1 - 2` wraps to `2^64 - 1`, and the conversion
back to `int` turns that into `-1`; for a slide count that fits an `int` the
stored value is the integer `n - k`. -/
def sizeMinus (n k : Nat) : Int := (n : Int) - (k : Int)

/-- The element `slides[i]` for a signed index, when it exists. -/
def slideAt (slides : List SlideRef) (i : Int) : Option SlideRef :=
  if 0 ≤ i then slides.get? i.toNat else none

/-- The body of `magSlideShowSource::enqueueSlide`: start the slide, then push it
on `activeSlides`. -/
def enqueueSlide (slide : SlideRef) (startTime : Nat) (s : State) : State :=
  { s with trace := s.trace ++ [Effect.start slide startTime],
           activeSlides := s.activeSlides ++ [slide] }

/-- The statement `ofNotifyEvent(slideshowWillLoopEvent, args, this)`. -/
def notifyWillLoop (s : State) : State :=
  { s with trace := s.trace ++ [Effect.slideshowWillLoop] }

/-- How control leaves the `switch` of `playNextSlide`. -/
inductive Switch where
  /-- By one of the `return` statements: no slide is enqueued. -/
  | returned (s : State)
  /-- By `break` or by falling out of the last case: the enqueue follows. -/
  | passed (s : State)
  deriving DecidableEq

/-- The first part of `magSlideShowSource::playNextSlide`: the increment of
`currentSlideIndex` by `direction` and the `switch` over the loop type.

In the `NONE` case the source compares `currentSlideIndex >= slides.size()` in
unsigned arithmetic, where a negative index is a huge number; together with the
second disjunct `currentSlideIndex < 0` the test is the signed one written
here. -/
def loopSwitch (s0 : State) : Switch :=
  let s := { s0 with currentSlideIndex := s0.currentSlideIndex + s0.direction }
  let num : Int := (s.slides.length : Int)
  match s.settings.loopType with
  | .NONE =>
    if s.currentSlideIndex ≥ num ∨ s.currentSlideIndex < 0 then .returned s
    else .passed s
  | .NORMAL =>
    if s.currentSlideIndex ≥ num then
      let s1 := { s with loopCount := s.loopCount + 1 }
      if s1.loopCount = s1.settings.numLoops then .returned s1
      else .passed (notifyWillLoop { s1 with currentSlideIndex := 0 })
    else if s.currentSlideIndex < 0 then
      let s1 := { s with loopCount := s.loopCount + 1 }
      if s1.loopCount = s1.settings.numLoops then .returned s1
      else .passed (notifyWillLoop
        { s1 with currentSlideIndex := sizeMinus s1.slides.length 1 })
    else .passed s
  | .PING_PONG =>
    if s.currentSlideIndex ≥ num then
      let s1 := { s with loopCount := s.loopCount + 1 }
      if s1.loopCount = s1.settings.numLoops then .returned s1
      else .passed (notifyWillLoop
        { s1 with direction := -1, currentSlideIndex := sizeMinus s1.slides.length 2 })
    else if s.currentSlideIndex < 0 then
      let s1 := { s with loopCount := s.loopCount + 1 }
      if s1.loopCount = s1.settings.numLoops then .returned s1
      else .passed (notifyWillLoop { s1 with direction := 1, currentSlideIndex := 1 })
    else .passed s

/-- The last statement of `playNextSlide`,
`enqueueSlide(slides[currentSlideIndex], ofGetElapsedTimeMillis())`. -/
def enqueueCurrent (now : Nat) (s : State) : Outcome :=
  match slideAt s.slides s.currentSlideIndex with
  | some slide => .ok (enqueueSlide slide now s)
  | none => .fault (.indexOutOfRange s.currentSlideIndex s.slides.length)

/-- The method `magSlideShowSource::playNextSlide`; `now` is the value that
`ofGetElapsedTimeMillis()` returns at the enqueue. -/
def playNextSlide (now : Nat) (s : State) : Outcome :=
  match loopSwitch s with
  | .returned s1 => .ok s1
  | .passed s1 => enqueueCurrent now s1

/-- The method `magSlideShowSource::playPrevSlide`. -/
def playPrevSlide (now : Nat) (s : State) : Outcome :=
  playNextSlide now { s with currentSlideIndex := s.currentSlideIndex - s.direction * 2 }

/-- The method `magSlideShowSource::playSlide`. -/
def playSlide (slideIndex : Int) (now : Nat) (s : State) : Outcome :=
  playNextSlide now { s with currentSlideIndex := slideIndex - s.direction }

/-- Consecutive `playNextSlide` calls, one for each clock reading of the list. -/
def playNextSlides : List Nat → State → Outcome
  | [], s => .ok s
  | now :: rest, s => (playNextSlide now s).andThen (playNextSlides rest)

/-- Number of `slideshowWillLoop` notifications in a trace. -/
def willLoopCount (trace : List Effect) : Nat :=
  trace.count Effect.slideshowWillLoop

/-- Number of `slideshowComplete` notifications in a trace. -/
def completeCount (trace : List Effect) : Nat :=
  trace.count Effect.slideshowComplete

/-- A show in the state its constructor and member initialisers leave it in, with
the given settings and slides: index 0, forward direction, nothing active. -/
def freshShow (loopType : LoopType) (numLoops : Int) (slides : List SlideRef) : State :=
  { settings := { width := 100, height := 100, loopType := loopType,
                  numLoops := numLoops, resizeOption := ResizeOptions.NoResize,
                  slidesFolderPath := "", slideshowFilePath := "" },
    slides := slides, activeSlides := [], currentSlideIndex := 0, direction := 1,
    loopCount := 0, isPlaying := false, runningTime := 0, lastTime := 0,
    deltaTime := 0, trace := [] }

/-- The method `magSlideShowSource::play`; `now` and `startTime` are the two
readings of `ofGetElapsedTimeMillis()`, for `lastTime` and for the enqueue. -/
def play (now startTime : Nat) (s : State) : Outcome :=
  if !s.isPlaying then
    enqueueCurrent startTime { s with runningTime := 0, lastTime := now, isPlaying := true }
  else .ok s

/-- The method `magSlideShowSource::pause`. -/
def pause (s : State) : State :=
  { s with isPlaying := false }

/-- An event a slide raises towards the show while it is updated. The show
listens to `slideStateChangedEvent` and `slideCompleteEvent` (see `addSlide`). -/
inductive SlideEvent where
  /-- The event `slideStateChangedEvent`; `state` is what `getSlideState()` returns in the
  handler and `now` what `ofGetElapsedTimeMillis()` returns there. -/
  | stateChanged (state : SlideState) (now : Nat)
  /-- The event `slideCompleteEvent`. -/
  | complete
  deriving DecidableEq

/-- The handler `magSlideShowSource::slideStateChanged`. -/
def slideStateChanged (state : SlideState) (now : Nat) (s : State) : Outcome :=
  if state = SlideState.BuildOut then playNextSlide now s else .ok s

/-- The handler `magSlideShowSource::slideComplete`. -/
def slideComplete (sender : SlideRef) (s : State) : State :=
  { s with trace := s.trace ++ [Effect.setComplete sender] }

/-- The handlers run for the events one slide raises, in the order raised. -/
def dispatch (sender : SlideRef) : List SlideEvent → State → Outcome
  | [], s => .ok s
  | .stateChanged state now :: rest, s =>
    (slideStateChanged state now s).andThen (dispatch sender rest)
  | .complete :: rest, s => dispatch sender rest (slideComplete sender s)

/-- What one iteration of the update loop finds in the slide it visits: whether
`slide->activeTransition` is set, and the events the slide raises. -/
structure Visit where
  activeTransition : Bool
  events : List SlideEvent
  deriving DecidableEq

/-- One iteration of the loop `for (auto &slide : activeSlides)` of `update`. -/
def updateSlide (deltaTime : Nat) (slide : SlideRef) (v : Visit) (s : State) : Outcome :=
  let s1 := if v.activeTransition
    then { s with trace := s.trace ++ [Effect.transitionUpdate slide deltaTime] } else s
  dispatch slide v.events { s1 with trace := s1.trace ++ [Effect.slideUpdate slide deltaTime] }

/-- The loop `for (auto &slide : activeSlides)` of `update`; `visits k` is what
the `k`-th iteration finds. The loop walks the live vector. When a handler run
during an iteration enqueues a slide, the `push_back` of `enqueueSlide` acts on
that very vector and invalidates the iterators the loop goes on to use (the end
iterator always, every iterator when the storage is reallocated): undefined
behaviour, reported as `Fault.iteratorInvalidated`. The loop therefore goes on
only while `activeSlides` is what it was, and the entries still to visit are
`rest`. -/
def updatePass (deltaTime : Nat) (visits : Nat → Visit) :
    Nat → List SlideRef → State → Outcome
  | _, [], s => .ok s
  | k, slide :: rest, s =>
    (updateSlide deltaTime slide (visits k) s).andThen fun s1 =>
      if s1.activeSlides = s.activeSlides then updatePass deltaTime visits (k + 1) rest s1
      else .fault Fault.iteratorInvalidated

/-- The erase loop of `update`. The iterator is its offset from `begin()`, a
signed number, as for the pointer-like iterators of `std::vector`. After
`activeSlides.erase(iter)` the source steps the iterator back (`--iter`, which
gives offset `-1` when the first entry was erased) and the loop header steps it
forward again (`iter++`); otherwise only the header steps it. The offset is never
negative when the loop condition `iter < end()` is tested. -/
def purgeLoop (isSlideComplete : SlideRef → Bool) (v : List SlideRef) (iter : Int) :
    List SlideRef :=
  if h : 0 ≤ iter ∧ iter < (v.length : Int) then
    if isSlideComplete (v.get ⟨iter.toNat, by omega⟩) then
      purgeLoop isSlideComplete (v.eraseIdx iter.toNat) ((iter - 1) + 1)
    else purgeLoop isSlideComplete v (iter + 1)
  else v
termination_by (2 * (v.length : Int) - iter).toNat
decreasing_by
  all_goals simp_wf
  · have hlen : (v.eraseIdx iter.toNat).length = v.length - 1 := by
      rw [List.length_eraseIdx]; simp; omega
    omega
  · omega

/-- The part of `update` after the loop over the active slides: the erase loop
and the completion check. -/
def finishUpdate (isSlideComplete : SlideRef → Bool) (s : State) : State :=
  let s1 := { s with activeSlides := purgeLoop isSlideComplete s.activeSlides 0 }
  if s1.activeSlides.length = 0 ∧ s1.isPlaying = true then
    { s1 with isPlaying := false, trace := s1.trace ++ [Effect.slideshowComplete] }
  else s1

/-- The part of `update` up to the end of the loop over the active slides: the
clock bookkeeping (unsigned 64-bit arithmetic) and the update pass. -/
def beginUpdate (nowTime : Nat) (visits : Nat → Visit) (s : State) : Outcome :=
  let deltaTime := (nowTime + 2 ^ 64 - s.lastTime) % 2 ^ 64
  let s1 := { s with deltaTime := deltaTime,
                     runningTime := (s.runningTime + deltaTime) % 2 ^ 64,
                     lastTime := nowTime }
  updatePass deltaTime visits 0 s1.activeSlides s1

/-- The method `magSlideShowSource::update`; `nowTime` is the clock reading,
`visits` what the slides do when updated, and `isSlideComplete` what
`isSlideComplete()` returns for each slide during the erase loop. -/
def update (nowTime : Nat) (visits : Nat → Visit) (isSlideComplete : SlideRef → Bool)
    (s : State) : Outcome :=
  if !s.isPlaying then .ok s
  else (beginUpdate nowTime visits s).andThen
    fun s2 => .ok (finishUpdate isSlideComplete s2)

/-! ## The resize switch of `addSlide` -/

/-- Division of the source, in exact arithmetic: it has no value when the divisor
is zero (the floating-point division of the source yields an infinity or a NaN). -/
def divide (a b : ℚ) : Option ℚ :=
  if b = 0 then none else some (a / b)

/-- What `addSlide` reads from the slide it is given. -/
structure SlideInfo where
  ref : SlideRef
  resizeOption : ResizeOptions
  width : ℚ
  height : ℚ

/-- The option the resize switch of `addSlide` runs on: the option of the slide,
replaced by the option of the show when it is `NoResize`. -/
def effectiveOption (own : ResizeOptions) (settings : Settings) : ResizeOptions :=
  if own = ResizeOptions.NoResize then settings.resizeOption else own

/-- The `switch (rOption)` of `addSlide`: the size of the slide after it, for a
canvas `cw` by `ch` and a slide `sw` by `sh`; `none` when the ratio has no value.
The options without a `case` leave the size as it is. -/
def resizeSwitch (rOption : ResizeOptions) (cw ch sw sh : ℚ) : Option (ℚ × ℚ) :=
  match rOption with
  | .FitProportionally =>
    (if sw > sh then divide cw sw else divide ch sh).map
      fun ratio => (sw * ratio, sh * ratio)
  | .FillProportionally =>
    (if sw > sh then divide ch sh else divide cw sw).map
      fun ratio => (sw * ratio, sh * ratio)
  | .Fit => some (cw, ch)
  | .NoResize => some (sw, sh)
  | .Native => some (sw, sh)

/-- The method `magSlideShowSource::addSlide`, for a canvas `cw` by `ch`
(`getWidth()` and `getHeight()` of the frame buffer): the slide is pushed on
`slides` first, then sized. The result is the new state and the size the slide
has afterwards. The transitions built by the factory and the listener
registrations do not touch the modelled state. -/
def addSlide (cw ch : ℚ) (slide : SlideInfo) (s : State) : State × Option (ℚ × ℚ) :=
  ({ s with slides := s.slides ++ [slide.ref] },
   resizeSwitch (effectiveOption slide.resizeOption s.settings) cw ch slide.width slide.height)

/-- The resolver of the specification, section 4.2, for a positive source size:
the target size under each policy. -/
def specResolve (policy : ResizeOptions) (cw ch sw sh : ℚ) : ℚ × ℚ :=
  match policy with
  | .NoResize => (sw, sh)
  | .Native => (sw, sh)
  | .Fit => (cw, ch)
  | .FitProportionally =>
    let r := if sw > sh then cw / sw else ch / sh
    (sw * r, sh * r)
  | .FillProportionally =>
    let r := if sw > sh then ch / sh else cw / sw
    (sw * r, sh * r)

/-- The triangle wave `0, 1, .., n-1, n-2, .., 1, 0, 1, ..` of period `2n-2`: its
`k`-th term, counting from `k = 0`. -/
def pingPongIndex (n k : Nat) : Nat :=
  if k % (2 * n - 2) < n then k % (2 * n - 2) else 2 * n - 2 - k % (2 * n - 2)

/-- Where a `PING_PONG` show stands after `k` advances from index 0: on the way
up, at the lower turning point, or on the way down. -/
def PingPongPhase (n k : Nat) (index direction : Int) : Prop :=
  (k = 0 ∧ index = 0 ∧ direction = 1)
  ∨ (0 < k ∧ 1 ≤ k % (2 * n - 2) ∧ k % (2 * n - 2) < n
      ∧ index = ((k % (2 * n - 2) : Nat) : Int) ∧ direction = 1)
  ∨ (0 < k ∧ k % (2 * n - 2) = 0 ∧ index = 0 ∧ direction = -1)
  ∨ (0 < k ∧ n ≤ k % (2 * n - 2)
      ∧ index = ((2 * n - 2 - k % (2 * n - 2) : Nat) : Int) ∧ direction = -1)

/-- What an operation leaves alone when it neither writes `isPlaying` nor emits a
slideshow-complete notification. -/
def KeepsPlayback (s s1 : State) : Prop :=
  s1.isPlaying = s.isPlaying ∧ completeCount s1.trace = completeCount s.trace

/-- A slide that has no active transition and raises no event when updated. -/
def quietVisit : Visit :=
  { activeTransition := false, events := [] }

/-- A show that is playing its first slide: `play` on a fresh show. -/
def playingShow (loopType : LoopType) (numLoops : Int) (slides : List SlideRef)
    (first : SlideRef) (startTime : Nat) : State :=
  { freshShow loopType numLoops slides with
    isPlaying := true, lastTime := startTime, activeSlides := [first],
    trace := [Effect.start first startTime] }

/-- The outcome is a state, and the state satisfies `P`. -/
def Outcome.holds (o : Outcome) (P : State → Prop) : Prop :=
  match o with
  | .ok s => P s
  | .fault _ => False

/-! ## Setting the show up -/

/-- What `createFromFolderContents` makes of one file of the folder. -/
inductive FolderFile where
  /-- The file loads as an image (`tempImage.load(file)`); the image slide made of it. -/
  | image (slide : SlideInfo)
  /-- The file has a known movie extension and `slide->setup(file)` succeeds; the
  video slide made of it. -/
  | movie (slide : SlideInfo)
  /-- Any other file: no slide is added for it. -/
  | unusable

/-- What `createFromFolderContents` finds at the path it is given. -/
inductive FolderContents where
  /-- The path is not a directory. -/
  | notDirectory
  /-- The sorted files of the directory. -/
  | files (l : List FolderFile)

/-- One iteration of the loop over the files in `createFromFolderContents`. -/
def addFolderFile (cw ch : ℚ) (s : State) : FolderFile → State
  | .image slide => (addSlide cw ch slide s).1
  | .movie slide => (addSlide cw ch slide s).1
  | .unusable => s

/-- The method `magSlideShowSource::createFromFolderContents`, on a canvas `cw` by
`ch`: the new state and the returned flag. -/
def createFromFolderContents (cw ch : ℚ) (folder : FolderContents) (s : State) :
    State × Bool :=
  let s1 := { s with slides := [] }
  match folder with
  | .notDirectory => (s1, false)
  | .files l =>
    if l.length < 1 then (s1, false)
    else
      let s2 := l.foldl (addFolderFile cw ch) s1
      (s2, decide (s2.slides.length > 0))

/-- The method `magSlideShowSource::initialize`: the new state and the returned
flag; `folder` is what lies at `settings.slidesFolderPath`. The canvas the slides
are sized for is the one just allocated. -/
def initializeShow (settings : Settings) (folder : FolderContents) (s : State) :
    State × Bool :=
  let s1 := { s with settings := settings }
  if settings.width ≤ 0 ∨ settings.height ≤ 0 then (s1, false)
  else
    let s2 := { s1 with
      trace := s1.trace ++ [Effect.allocate settings.width settings.height] }
    if settings.slidesFolderPath ≠ "" then
      createFromFolderContents (settings.width : ℚ) (settings.height : ℚ) folder s2
    else if settings.slideshowFilePath ≠ "" then (s2, false)
    else (s2, true)

/-! ## Sequences of ticks -/

/-- The inputs of one `update` call. -/
structure Tick where
  nowTime : Nat
  visits : Nat → Visit
  isSlideComplete : SlideRef → Bool

/-- Consecutive `update` calls, one for each tick of the list. -/
def updates : List Tick → State → Outcome
  | [], s => .ok s
  | tick :: rest, s =>
    (update tick.nowTime tick.visits tick.isSlideComplete s).andThen (updates rest)

/-- Where a `PING_PONG` show with a loop limit stands after `m` advances from
index 0: it has crossed a boundary `j` times and made `q` steps since, `j` is the
loop count, and the direction is upward after an even number of crossings. -/
def PingPongLeg (n m : Nat) (index direction loopCount : Int) : Prop :=
  ∃ j q : Nat, m = j * (n - 1) + q ∧ q ≤ n - 1 ∧ (q = 0 → j = 0) ∧ loopCount = (j : Int)
    ∧ ((j % 2 = 0 ∧ direction = 1 ∧ index = (q : Int))
      ∨ (j % 2 = 1 ∧ direction = -1 ∧ index = (n : Int) - 1 - (q : Int)))

/-! ## The `int` range of the counters -/

/-- The largest value of `int` (32 bits). -/
def INT_MAX : Int := 2 ^ 31 - 1

/-- The smallest value of `int` (32 bits). -/
def INT_MIN : Int := -(2 ^ 31)

/-- Whether an integer is a value of `int`. -/
def fitsInt (x : Int) : Prop := INT_MIN ≤ x ∧ x ≤ INT_MAX

instance (x : Int) : Decidable (fitsInt x) := by
  unfold fitsInt
  infer_instance

/-- The method `playNextSlide` with its `int` arithmetic checked. The sum of
`currentSlideIndex += direction` and the loop count that leaves the switch (which
`loopCount++` has incremented on the wrapping branches) are the integers
`loopSwitch` computes as long as they are values of `int`; when one of them is not,
the source has overflowed a signed integer, which is undefined behaviour. -/
def playNextSlideInt (now : Nat) (s : State) : Outcome :=
  if fitsInt (s.currentSlideIndex + s.direction) then
    match loopSwitch s with
    | .returned s1 =>
      if fitsInt s1.loopCount then .ok s1 else .fault Fault.signedOverflow
    | .passed s1 =>
      if fitsInt s1.loopCount then enqueueCurrent now s1 else .fault Fault.signedOverflow
  else .fault Fault.signedOverflow

/-- Consecutive `playNextSlide` calls with the `int` arithmetic checked. -/
def playNextSlidesInt : List Nat → State → Outcome
  | [], s => .ok s
  | now :: rest, s => (playNextSlideInt now s).andThen (playNextSlidesInt rest)

/-! # Theorems -/

/-! ## Machine arithmetic behind `sizeMinus` -/

/-- The value `sizeMinus` stands for, computed as the machine does: subtraction
modulo `2^64`, then truncation to a 32-bit signed integer. -/
theorem sizeMinus_eq_machine (n k : Nat) (hn : n < 2 ^ 31) (hk : k ≤ 2 ^ 31) :
    toInt32 ((n + 2 ^ 64 - k) % 2 ^ 64) = sizeMinus n k := by
  unfold toInt32 sizeMinus
  split <;> omega

/-! ## Indexing and the in-range step -/

theorem slideAt_range {l : List SlideRef} {i : Int} {r : SlideRef}
    (h : slideAt l i = some r) : 0 ≤ i ∧ i < (l.length : Int) := by
  unfold slideAt at h
  split at h
  · rename_i h0
    have hlt : i.toNat < l.length := by
      by_contra hge
      rw [List.get?_eq_none.mpr (by omega)] at h
      exact Option.noConfusion h
    omega
  · exact Option.noConfusion h

theorem slideAt_of_range (l : List SlideRef) (i : Int) (h0 : 0 ≤ i)
    (h1 : i < (l.length : Int)) : ∃ r, slideAt l i = some r := by
  have hlt : i.toNat < l.length := by omega
  refine ⟨l.get ⟨i.toNat, hlt⟩, ?_⟩
  unfold slideAt
  rw [if_pos h0]
  exact List.get?_eq_get hlt

theorem slideAt_none_of_not_range (l : List SlideRef) (i : Int)
    (h : ¬ (0 ≤ i ∧ i < (l.length : Int))) : slideAt l i = none := by
  cases hs : slideAt l i with
  | none => rfl
  | some r => exact absurd (slideAt_range hs) h

/-- An advance whose new index is inside the slide list passes the switch with
nothing but the index changed, whatever the loop type. -/
theorem loopSwitch_inRange (s : State)
    (h0 : 0 ≤ s.currentSlideIndex + s.direction)
    (h1 : s.currentSlideIndex + s.direction < (s.slides.length : Int)) :
    loopSwitch s
      = Switch.passed { s with currentSlideIndex := s.currentSlideIndex + s.direction } := by
  have h2 : ¬ ((s.slides.length : Int) ≤ s.currentSlideIndex + s.direction) := by omega
  have h3 : ¬ (s.currentSlideIndex + s.direction < 0) := by omega
  unfold loopSwitch
  cases hT : s.settings.loopType <;> simp [hT, h0, h1, h2, h3]

theorem playNextSlide_inRange (now : Nat) (s : State) (r : SlideRef)
    (h : slideAt s.slides (s.currentSlideIndex + s.direction) = some r) :
    playNextSlide now s
      = Outcome.ok (enqueueSlide r now
          { s with currentSlideIndex := s.currentSlideIndex + s.direction }) := by
  have hr := slideAt_range h
  unfold playNextSlide
  rw [loopSwitch_inRange s hr.1 hr.2]
  simp [enqueueCurrent, h]

/-! ## The branches of the switch that leave the slide list -/

theorem loopSwitch_normal_wrap (s : State) (hT : s.settings.loopType = LoopType.NORMAL)
    (hge : (s.slides.length : Int) ≤ s.currentSlideIndex + s.direction)
    (hne : s.loopCount + 1 ≠ s.settings.numLoops) :
    loopSwitch s = Switch.passed (notifyWillLoop
      { s with currentSlideIndex := 0, loopCount := s.loopCount + 1 }) := by
  unfold loopSwitch
  simp [hT, hge, hne]

theorem loopSwitch_normal_stop (s : State) (hT : s.settings.loopType = LoopType.NORMAL)
    (hge : (s.slides.length : Int) ≤ s.currentSlideIndex + s.direction)
    (heq : s.loopCount + 1 = s.settings.numLoops) :
    loopSwitch s = Switch.returned
      { s with currentSlideIndex := s.currentSlideIndex + s.direction,
               loopCount := s.loopCount + 1 } := by
  unfold loopSwitch
  simp [hT, hge, heq]

theorem loopSwitch_pingPong_top (s : State) (hT : s.settings.loopType = LoopType.PING_PONG)
    (hge : (s.slides.length : Int) ≤ s.currentSlideIndex + s.direction)
    (hne : s.loopCount + 1 ≠ s.settings.numLoops) :
    loopSwitch s = Switch.passed (notifyWillLoop
      { s with currentSlideIndex := sizeMinus s.slides.length 2, direction := -1,
               loopCount := s.loopCount + 1 }) := by
  unfold loopSwitch
  simp [hT, hge, hne]

theorem loopSwitch_pingPong_bottom (s : State)
    (hT : s.settings.loopType = LoopType.PING_PONG)
    (hlt : s.currentSlideIndex + s.direction < 0)
    (hne : s.loopCount + 1 ≠ s.settings.numLoops) :
    loopSwitch s = Switch.passed (notifyWillLoop
      { s with currentSlideIndex := 1, direction := 1, loopCount := s.loopCount + 1 }) := by
  have hge : ¬ ((s.slides.length : Int) ≤ s.currentSlideIndex + s.direction) := by omega
  unfold loopSwitch
  simp [hT, hge, hlt, hne]

/-- With at least two slides, every index that passes the switch is inside the
slide list. -/
theorem loopSwitch_passed_range (s s1 : State) (hN : 2 ≤ s.slides.length)
    (h : loopSwitch s = Switch.passed s1) :
    0 ≤ s1.currentSlideIndex ∧ s1.currentSlideIndex < (s1.slides.length : Int) := by
  unfold loopSwitch at h
  cases hT : s.settings.loopType <;> simp only [hT] at h <;> split_ifs at h <;>
    injection h with h <;> subst h <;> simp [notifyWillLoop, sizeMinus] <;> omega

theorem playNextSlides_append (ts us : List Nat) (s : State) :
    playNextSlides (ts ++ us) s = (playNextSlides ts s).andThen (playNextSlides us) := by
  induction ts generalizing s with
  | nil => rfl
  | cons t rest ih =>
    simp only [List.cons_append, playNextSlides]
    cases playNextSlide t s with
    | ok s1 => simpa [Outcome.andThen] using ih s1
    | fault f => rfl

theorem playNextSlides_snoc (ts : List Nat) (t : Nat) (s sk : State)
    (h : playNextSlides ts s = Outcome.ok sk) :
    playNextSlides (ts ++ [t]) s = playNextSlide t sk := by
  rw [playNextSlides_append, h]
  simp only [Outcome.andThen, playNextSlides]
  cases playNextSlide t sk <;> rfl

theorem willLoopCount_append (a b : List Effect) :
    willLoopCount (a ++ b) = willLoopCount a + willLoopCount b := by
  simp [willLoopCount]

/-! ## Runs of advances inside the slide list -/

/-- Forward advances that stay below the end of the slide list: each one
enqueues, none notifies, and only the index moves. -/
theorem playNextSlides_forward (ts : List Nat) (s : State) (hDir : s.direction = 1)
    (h0 : 0 ≤ s.currentSlideIndex)
    (h1 : s.currentSlideIndex + (ts.length : Int) < (s.slides.length : Int)) :
    ∃ sk, playNextSlides ts s = Outcome.ok sk
      ∧ sk.currentSlideIndex = s.currentSlideIndex + (ts.length : Int)
      ∧ sk.direction = 1 ∧ sk.loopCount = s.loopCount
      ∧ sk.settings = s.settings ∧ sk.slides = s.slides
      ∧ sk.activeSlides.length = s.activeSlides.length + ts.length
      ∧ willLoopCount sk.trace = willLoopCount s.trace := by
  induction ts generalizing s with
  | nil => exact ⟨s, rfl, by simp, hDir, rfl, rfl, rfl, rfl, rfl⟩
  | cons t rest ih =>
    simp only [List.length_cons, Nat.cast_add, Nat.cast_one] at h1
    obtain ⟨r, hr⟩ := slideAt_of_range s.slides (s.currentSlideIndex + s.direction)
      (by omega) (by omega)
    have hstep := playNextSlide_inRange t s r hr
    obtain ⟨sk, hk, hi, hd, hl, hs, hsl, ha, hw⟩ := ih
      (enqueueSlide r t { s with currentSlideIndex := s.currentSlideIndex + s.direction })
      (by simp [enqueueSlide, hDir]) (by simp [enqueueSlide]; omega)
      (by simp [enqueueSlide]; omega)
    refine ⟨sk, ?_, ?_, hd, ?_, ?_, ?_, ?_, ?_⟩
    · simp only [playNextSlides, hstep, Outcome.andThen]; exact hk
    · rw [hi]; simp [enqueueSlide, hDir]; omega
    · rw [hl]; simp [enqueueSlide]
    · rw [hs]; simp [enqueueSlide]
    · rw [hsl]; simp [enqueueSlide]
    · rw [ha]; simp [enqueueSlide]; omega
    · rw [hw]; simp [enqueueSlide, willLoopCount]

/-! ## The `NORMAL` loop -/

/-- The advance that runs off the end of the slide list under `NORMAL`, below
the loop limit: back to index 0, one will-loop notification, one enqueue. -/
theorem playNextSlide_normal_wrap (t : Nat) (s : State)
    (hT : s.settings.loopType = LoopType.NORMAL) (hN : 1 ≤ s.slides.length)
    (hge : (s.slides.length : Int) ≤ s.currentSlideIndex + s.direction)
    (hne : s.loopCount + 1 ≠ s.settings.numLoops) :
    ∃ r, slideAt s.slides 0 = some r ∧ playNextSlide t s = Outcome.ok (enqueueSlide r t
      (notifyWillLoop { s with currentSlideIndex := 0, loopCount := s.loopCount + 1 })) := by
  obtain ⟨r, hr⟩ := slideAt_of_range s.slides 0 (le_refl 0) (by omega)
  refine ⟨r, hr, ?_⟩
  unfold playNextSlide
  rw [loopSwitch_normal_wrap s hT hge hne]
  simp [enqueueCurrent, notifyWillLoop, hr]

/-- The advance that runs off the end of the slide list under `NORMAL` when the
loop limit is reached: no enqueue and no notification. -/
theorem playNextSlide_normal_stop (t : Nat) (s : State)
    (hT : s.settings.loopType = LoopType.NORMAL)
    (hge : (s.slides.length : Int) ≤ s.currentSlideIndex + s.direction)
    (heq : s.loopCount + 1 = s.settings.numLoops) :
    playNextSlide t s = Outcome.ok
      { s with currentSlideIndex := s.currentSlideIndex + s.direction,
               loopCount := s.loopCount + 1 } := by
  unfold playNextSlide
  rw [loopSwitch_normal_stop s hT hge heq]

/-- One pass over all `N` slides under `NORMAL`, forwards from index 0. -/
theorem playNextSlides_normal_cycle (ts : List Nat) (s : State)
    (hT : s.settings.loopType = LoopType.NORMAL) (hN : 1 ≤ s.slides.length)
    (hDir : s.direction = 1) (hIdx : s.currentSlideIndex = 0)
    (hne : s.loopCount + 1 ≠ s.settings.numLoops) (hlen : ts.length = s.slides.length) :
    ∃ sk, playNextSlides ts s = Outcome.ok sk
      ∧ sk.currentSlideIndex = 0 ∧ sk.direction = 1 ∧ sk.loopCount = s.loopCount + 1
      ∧ sk.settings = s.settings ∧ sk.slides = s.slides
      ∧ sk.activeSlides.length = s.activeSlides.length + ts.length
      ∧ willLoopCount sk.trace = willLoopCount s.trace + 1 := by
  obtain ⟨t, hlast⟩ : ∃ t, ts = ts.take (s.slides.length - 1) ++ [t] := by
    have hne : ts ≠ [] := by
      intro h; rw [h] at hlen; simp at hlen; omega
    refine ⟨ts.getLast hne, ?_⟩
    conv_lhs => rw [← List.dropLast_append_getLast hne]
    rw [List.dropLast_eq_take, hlen]
  have hinit : (ts.take (s.slides.length - 1)).length = s.slides.length - 1 := by
    rw [List.length_take]; omega
  obtain ⟨sm, hm, hi, hd, hl, hs, hsl, ha, hw⟩ :=
    playNextSlides_forward (ts.take (s.slides.length - 1)) s hDir (by omega)
      (by rw [hinit, hIdx]; omega)
  rw [hinit] at hi ha
  obtain ⟨r, -, hstep⟩ := playNextSlide_normal_wrap t sm (by rw [hs]; exact hT)
    (by rw [hsl]; exact hN) (by rw [hsl, hi, hd, hIdx]; omega) (by rw [hl, hs]; exact hne)
  have hrun : playNextSlides ts s = playNextSlide t sm := by
    conv_lhs => rw [hlast]
    exact playNextSlides_snoc _ t s sm hm
  refine ⟨enqueueSlide r t (notifyWillLoop
    { sm with currentSlideIndex := 0, loopCount := sm.loopCount + 1 }),
    ?_, ?_, ?_, ?_, ?_, ?_, ?_, ?_⟩
  · rw [hrun]; exact hstep
  · simp [enqueueSlide, notifyWillLoop]
  · simp [enqueueSlide, notifyWillLoop, hd]
  · simp [enqueueSlide, notifyWillLoop, hl]
  · simp [enqueueSlide, notifyWillLoop, hs]
  · simp [enqueueSlide, notifyWillLoop, hsl]
  · simp [enqueueSlide, notifyWillLoop, ha, hlen]; omega
  · simp only [enqueueSlide, notifyWillLoop, willLoopCount_append, hw]
    simp [willLoopCount]

/-- The second pass under `NORMAL`: after `k` advances with `N ≤ k ≤ 2N-1` the show
has wrapped once and stands at index `k - N`. -/
theorem playNextSlides_normal_second_pass (ts : List Nat) (s : State) (k : Nat)
    (hT : s.settings.loopType = LoopType.NORMAL) (hN : 1 ≤ s.slides.length)
    (hDir : s.direction = 1) (hIdx : s.currentSlideIndex = 0)
    (hne : s.loopCount + 1 ≠ s.settings.numLoops)
    (hk1 : s.slides.length ≤ k) (hk2 : k ≤ 2 * s.slides.length - 1)
    (hlen : k ≤ ts.length) :
    ∃ sk, playNextSlides (ts.take k) s = Outcome.ok sk
      ∧ sk.currentSlideIndex = (k : Int) - (s.slides.length : Int)
      ∧ sk.direction = 1 ∧ sk.loopCount = s.loopCount + 1
      ∧ sk.settings = s.settings ∧ sk.slides = s.slides
      ∧ sk.activeSlides.length = s.activeSlides.length + k
      ∧ willLoopCount sk.trace = willLoopCount s.trace + 1 := by
  have hsplit : ts.take k
      = ts.take s.slides.length ++ (ts.take k).drop s.slides.length := by
    have h := (List.take_append_drop s.slides.length (ts.take k)).symm
    rwa [List.take_take, Nat.min_eq_left hk1] at h
  have hl1 : (ts.take s.slides.length).length = s.slides.length := by
    rw [List.length_take]; omega
  have hl2 : ((ts.take k).drop s.slides.length).length = k - s.slides.length := by
    rw [List.length_drop, List.length_take]; omega
  obtain ⟨sN, hrun, hi, hd, hl, hs, hsl, ha, hw⟩ :=
    playNextSlides_normal_cycle (ts.take s.slides.length) s hT hN hDir hIdx hne hl1
  obtain ⟨sk, hrun2, hi2, hd2, hlc2, hs2, hsl2, ha2, hw2⟩ :=
    playNextSlides_forward ((ts.take k).drop s.slides.length) sN hd (by omega)
      (by rw [hl2, hi, hsl]; omega)
  refine ⟨sk, ?_, ?_, hd2, ?_, ?_, ?_, ?_, ?_⟩
  · rw [hsplit, playNextSlides_append, hrun]; exact hrun2
  · rw [hi2, hl2, hi]; omega
  · rw [hlc2, hl]
  · rw [hs2, hs]
  · rw [hsl2, hsl]
  · rw [ha2, ha, hl1, hl2]; omega
  · rw [hw2, hw]

/-- Claim C4, amended. Under `NORMAL` with `numLoops = 2` and `N ≥ 1` slides, from
index 0, forward direction and `loopCount = 0`: each of the first `2N-1`
`playNextSlide` calls enqueues a slide, the will-loop notification is emitted
exactly once among them (by call `N`, which wraps the index to 0), and call `2N`
is the first that enqueues nothing; it emits no notification either. The slides
are played through twice, with one wrap in between. -/
theorem C4_normal_two_loops_single_wrap (s : State) (ts : List Nat) (t : Nat)
    (hT : s.settings.loopType = LoopType.NORMAL) (hN : 1 ≤ s.slides.length)
    (hLoops : s.settings.numLoops = 2) (hIdx : s.currentSlideIndex = 0)
    (hDir : s.direction = 1) (hCount : s.loopCount = 0)
    (hlen : ts.length = 2 * s.slides.length - 1) :
    (∀ k, k ≤ 2 * s.slides.length - 1 →
        ∃ sk, playNextSlides (ts.take k) s = Outcome.ok sk
          ∧ sk.activeSlides.length = s.activeSlides.length + k
          ∧ willLoopCount sk.trace
              = willLoopCount s.trace + (if k < s.slides.length then 0 else 1))
    ∧ ∃ s1 s2, playNextSlides ts s = Outcome.ok s1 ∧ playNextSlide t s1 = Outcome.ok s2
        ∧ s2.activeSlides = s1.activeSlides ∧ s2.trace = s1.trace := by
  have hne : s.loopCount + 1 ≠ s.settings.numLoops := by rw [hCount, hLoops]; decide
  constructor
  · intro k hk
    by_cases hkN : k < s.slides.length
    · have hlk : (ts.take k).length = k := by rw [List.length_take]; omega
      obtain ⟨sk, h, -, -, -, -, -, ha, hw⟩ :=
        playNextSlides_forward (ts.take k) s hDir (by omega) (by rw [hlk, hIdx]; omega)
      exact ⟨sk, h, by rw [ha, hlk], by rw [hw, if_pos hkN]; rfl⟩
    · obtain ⟨sk, h, -, -, -, -, -, ha, hw⟩ :=
        playNextSlides_normal_second_pass ts s k hT hN hDir hIdx hne (by omega) hk
          (by omega)
      exact ⟨sk, h, ha, by rw [hw, if_neg hkN]⟩
  · obtain ⟨s1, h, hi, hd, hl, hs, hsl, -, -⟩ :=
      playNextSlides_normal_second_pass ts s (2 * s.slides.length - 1) hT hN hDir hIdx hne
        (by omega) (le_refl _) (by omega)
    rw [← hlen, List.take_length] at h
    have hstop := playNextSlide_normal_stop t s1 (by rw [hs]; exact hT)
      (by rw [hsl, hi, hd]; omega) (by rw [hl, hs, hCount, hLoops]; rfl)
    exact ⟨s1, _, h, hstop, rfl, rfl⟩

/-- Instance of C4 (amended): one slide; the first advance wraps and enqueues, the
second stops. -/
theorem C4_normal_two_loops_witness :
    (∀ k, k ≤ 2 * (freshShow LoopType.NORMAL 2 [10]).slides.length - 1 →
        ∃ sk, playNextSlides (List.take k [5]) (freshShow LoopType.NORMAL 2 [10]) = Outcome.ok sk
          ∧ sk.activeSlides.length = (freshShow LoopType.NORMAL 2 [10]).activeSlides.length + k
          ∧ willLoopCount sk.trace
              = willLoopCount (freshShow LoopType.NORMAL 2 [10]).trace
                + (if k < (freshShow LoopType.NORMAL 2 [10]).slides.length then 0 else 1))
    ∧ ∃ s1 s2, playNextSlides [5] (freshShow LoopType.NORMAL 2 [10]) = Outcome.ok s1
        ∧ playNextSlide 6 s1 = Outcome.ok s2
        ∧ s2.activeSlides = s1.activeSlides ∧ s2.trace = s1.trace :=
  C4_normal_two_loops_single_wrap (freshShow LoopType.NORMAL 2 [10]) [5] 6
    rfl (by decide) rfl rfl rfl rfl rfl

/-- Claim C4 as stated fails: with three slides and `numLoops = 2` the first five
advances all enqueue, the sixth enqueues nothing, and by then the index has been
wrapped with a will-loop notification once, not twice. -/
theorem C4_two_wraps_counterexample :
    ∃ s5 s6, playNextSlides [1, 2, 3, 4, 5] (freshShow LoopType.NORMAL 2 [10, 11, 12])
        = Outcome.ok s5
      ∧ s5.activeSlides = [11, 12, 10, 11, 12]
      ∧ playNextSlide 6 s5 = Outcome.ok s6
      ∧ s6.activeSlides = s5.activeSlides
      ∧ willLoopCount s5.trace = 1
      ∧ willLoopCount s6.trace ≠ 2 :=
  ⟨_, _, rfl, rfl, rfl, rfl, rfl, by decide⟩

/-! ## The `PING_PONG` loop -/

/-- One advance under `PING_PONG` with at least two slides, away from the loop
limit, from an index inside the slide list: it enqueues the slide at the new
index, and the new index and direction are those of the four cases. -/
theorem playNextSlide_pingPong_step (t : Nat) (s : State)
    (hT : s.settings.loopType = LoopType.PING_PONG) (hN : 2 ≤ s.slides.length)
    (hne : s.loopCount + 1 ≠ s.settings.numLoops)
    (h0 : 0 ≤ s.currentSlideIndex) (h1 : s.currentSlideIndex < (s.slides.length : Int))
    (hd : s.direction = 1 ∨ s.direction = -1) :
    ∃ s1 r, playNextSlide t s = Outcome.ok s1
      ∧ s1.settings = s.settings ∧ s1.slides = s.slides
      ∧ slideAt s.slides s1.currentSlideIndex = some r
      ∧ s1.activeSlides = s.activeSlides ++ [r]
      ∧ (s.direction = 1 → s.currentSlideIndex + 1 < (s.slides.length : Int) →
          s1.currentSlideIndex = s.currentSlideIndex + 1 ∧ s1.direction = 1
            ∧ s1.loopCount = s.loopCount)
      ∧ (s.direction = 1 → s.currentSlideIndex + 1 = (s.slides.length : Int) →
          s1.currentSlideIndex = (s.slides.length : Int) - 2 ∧ s1.direction = -1
            ∧ s1.loopCount = s.loopCount + 1)
      ∧ (s.direction = -1 → 1 ≤ s.currentSlideIndex →
          s1.currentSlideIndex = s.currentSlideIndex - 1 ∧ s1.direction = -1
            ∧ s1.loopCount = s.loopCount)
      ∧ (s.direction = -1 → s.currentSlideIndex = 0 →
          s1.currentSlideIndex = 1 ∧ s1.direction = 1
            ∧ s1.loopCount = s.loopCount + 1) := by
  by_cases hin : 0 ≤ s.currentSlideIndex + s.direction
      ∧ s.currentSlideIndex + s.direction < (s.slides.length : Int)
  · obtain ⟨r, hr⟩ := slideAt_of_range s.slides _ hin.1 hin.2
    refine ⟨_, r, playNextSlide_inRange t s r hr, rfl, rfl, hr, rfl, ?_, ?_, ?_, ?_⟩ <;>
      intro hdir hidx <;> dsimp only [enqueueSlide] <;> omega
  · rcases hd with hd | hd
    · have hge : (s.slides.length : Int) ≤ s.currentSlideIndex + s.direction := by omega
      obtain ⟨r, hr⟩ := slideAt_of_range s.slides (sizeMinus s.slides.length 2)
        (by unfold sizeMinus; omega) (by unfold sizeMinus; omega)
      refine ⟨enqueueSlide r t (notifyWillLoop
        { s with currentSlideIndex := sizeMinus s.slides.length 2, direction := -1,
                 loopCount := s.loopCount + 1 }), r, ?_, rfl, rfl, hr, rfl, ?_, ?_, ?_, ?_⟩
      · unfold playNextSlide
        rw [loopSwitch_pingPong_top s hT hge hne]
        simp [enqueueCurrent, notifyWillLoop, hr]
      all_goals
        intro hdir hidx
        dsimp only [enqueueSlide, notifyWillLoop, sizeMinus]
        omega
    · have hlt : s.currentSlideIndex + s.direction < 0 := by omega
      obtain ⟨r, hr⟩ := slideAt_of_range s.slides 1 (by omega) (by omega)
      refine ⟨enqueueSlide r t (notifyWillLoop
        { s with currentSlideIndex := 1, direction := 1,
                 loopCount := s.loopCount + 1 }), r, ?_, rfl, rfl, hr, rfl, ?_, ?_, ?_, ?_⟩
      · unfold playNextSlide
        rw [loopSwitch_pingPong_bottom s hT hlt hne]
        simp [enqueueCurrent, notifyWillLoop, hr]
      all_goals
        intro hdir hidx
        dsimp only [enqueueSlide, notifyWillLoop]
        omega

/-- The remainder of `k + 1` in terms of the remainder of `k`. -/
theorem succ_mod_cases (k p : Nat) (hp : 0 < p) :
    (k % p + 1 < p ∧ (k + 1) % p = k % p + 1) ∨ (k % p + 1 = p ∧ (k + 1) % p = 0) := by
  have hlt := Nat.mod_lt k hp
  by_cases h : k % p + 1 < p
  · left
    refine ⟨h, ?_⟩
    rw [Nat.add_mod, Nat.mod_eq_of_lt (a := k % p + 1 % p)]
    · rw [Nat.mod_eq_of_lt (by omega : 1 < p)]
    · by_cases h1 : p = 1
      · omega
      · rw [Nat.mod_eq_of_lt (by omega : 1 < p)]; exact h
  · right
    have he : k % p + 1 = p := by omega
    refine ⟨he, ?_⟩
    have hk : k + 1 = p * (k / p + 1) := by
      have := Nat.div_add_mod k p
      rw [Nat.mul_add, Nat.mul_one]; omega
    rw [hk]; exact Nat.mul_mod_right _ _


/-- The phase after one more advance. -/
theorem pingPongPhase_step (n k : Nat) (hn : 2 ≤ n) (i d i1 d1 : Int)
    (hp : PingPongPhase n k i d)
    (hup : d = 1 → i + 1 < (n : Int) → i1 = i + 1 ∧ d1 = 1)
    (htop : d = 1 → i + 1 = (n : Int) → i1 = (n : Int) - 2 ∧ d1 = -1)
    (hdown : d = -1 → 1 ≤ i → i1 = i - 1 ∧ d1 = -1)
    (hbottom : d = -1 → i = 0 → i1 = 1 ∧ d1 = 1) :
    PingPongPhase n (k + 1) i1 d1 := by
  unfold PingPongPhase at hp ⊢
  have hmod := succ_mod_cases k (2 * n - 2) (by omega)
  have hlt := Nat.mod_lt k (by omega : 0 < 2 * n - 2)
  rcases hp with ⟨hk, hi, hd⟩ | ⟨hk, hr1, hr2, hi, hd⟩ | ⟨hk, hr, hi, hd⟩ | ⟨hk, hr, hi, hd⟩
  · subst hk
    have h1 : (0 + 1) % (2 * n - 2) = 1 := Nat.mod_eq_of_lt (by omega)
    have := hup hd (by omega)
    right; left
    rw [h1]
    omega
  · by_cases hlast : i + 1 < (n : Int)
    · have := hup hd hlast
      right; left
      omega
    · have := htop hd (by omega)
      rcases hmod with ⟨ha, hb⟩ | ⟨ha, hb⟩
      · right; right; right
        omega
      · right; right; left
        omega
  · have := hbottom hd hi
    right; left
    omega
  · have := hdown hd (by omega)
    rcases hmod with ⟨ha, hb⟩ | ⟨ha, hb⟩
    · right; right; right
      omega
    · right; right; left
      omega

/-- A phase places the index inside the slide list and fixes the direction to
`+1` or `-1`; the index is the term of the triangle wave. -/
theorem pingPongPhase_facts (n k : Nat) (hn : 2 ≤ n) (i d : Int)
    (hp : PingPongPhase n k i d) :
    0 ≤ i ∧ i < (n : Int) ∧ (d = 1 ∨ d = -1) ∧ i = (pingPongIndex n k : Int) := by
  unfold PingPongPhase at hp
  unfold pingPongIndex
  have hlt := Nat.mod_lt k (by omega : 0 < 2 * n - 2)
  rcases hp with ⟨hk, hi, hd⟩ | ⟨hk, hr1, hr2, hi, hd⟩ | ⟨hk, hr, hi, hd⟩ | ⟨hk, hr, hi, hd⟩
  · subst hk
    simp only [Nat.zero_mod]
    rw [if_pos (by omega)]
    omega
  · rw [if_pos hr2]; omega
  · rw [if_pos (by omega)]; omega
  · rw [if_neg (by omega)]; omega

/-- The state of a `PING_PONG` show after any number of advances from index 0,
when the loop limit is out of reach. -/
theorem playNextSlides_pingPong (s : State) (ts : List Nat)
    (hT : s.settings.loopType = LoopType.PING_PONG) (hN : 2 ≤ s.slides.length)
    (hIdx : s.currentSlideIndex = 0) (hDir : s.direction = 1)
    (hLimit : s.settings.numLoops ≤ s.loopCount) :
    ∃ sk, playNextSlides ts s = Outcome.ok sk
      ∧ sk.settings = s.settings ∧ sk.slides = s.slides ∧ s.loopCount ≤ sk.loopCount
      ∧ PingPongPhase s.slides.length ts.length sk.currentSlideIndex sk.direction := by
  induction ts using List.reverseRecOn with
  | nil => exact ⟨s, rfl, rfl, rfl, le_refl _, Or.inl ⟨rfl, hIdx, hDir⟩⟩
  | append_singleton ts t ih =>
    obtain ⟨sk, hrun, hs, hsl, hlc, hp⟩ := ih
    obtain ⟨h0, h1, hd, -⟩ := pingPongPhase_facts _ _ hN _ _ hp
    obtain ⟨s1, r, hstep, hs1, hsl1, -, -, hup, htop, hdown, hbottom⟩ :=
      playNextSlide_pingPong_step t sk (by rw [hs]; exact hT) (by rw [hsl]; exact hN)
        (by rw [hs]; omega) h0 (by rw [hsl]; exact h1) hd
    rw [hsl] at hup htop
    refine ⟨s1, ?_, by rw [hs1, hs], by rw [hsl1, hsl], ?_, ?_⟩
    · rw [playNextSlides_snoc ts t s sk hrun]; exact hstep
    · rcases hd with hd | hd
      · by_cases hlast : sk.currentSlideIndex + 1 < (s.slides.length : Int)
        · have := hup hd hlast; omega
        · have := htop hd (by omega); omega
      · by_cases hz : sk.currentSlideIndex = 0
        · have := hbottom hd hz; omega
        · have := hdown hd (by omega); omega
    · rw [List.length_append, List.length_singleton]
      exact pingPongPhase_step _ _ hN _ _ _ _ hp
        (fun a b => ⟨(hup a b).1, (hup a b).2.1⟩)
        (fun a b => ⟨(htop a b).1, (htop a b).2.1⟩)
        (fun a b => ⟨(hdown a b).1, (hdown a b).2.1⟩)
        (fun a b => ⟨(hbottom a b).1, (hbottom a b).2.1⟩)

/-- The triangle wave climbs from 0 to `n-1` over its first `n` terms. -/
theorem pingPongIndex_up (n k : Nat) (hn : 2 ≤ n) (hk : k < n) : pingPongIndex n k = k := by
  unfold pingPongIndex
  rw [Nat.mod_eq_of_lt (by omega : k < 2 * n - 2), if_pos hk]

/-- The triangle wave descends from `n-1` back to 0 over the rest of the period. -/
theorem pingPongIndex_down (n k : Nat) (hn : 2 ≤ n) (hk1 : n - 1 ≤ k)
    (hk2 : k ≤ 2 * n - 2) : pingPongIndex n k = 2 * n - 2 - k := by
  unfold pingPongIndex
  by_cases hlast : k = 2 * n - 2
  · subst hlast
    rw [Nat.mod_self, if_pos (by omega)]; omega
  · rw [Nat.mod_eq_of_lt (by omega : k < 2 * n - 2)]
    split <;> omega

/-- The triangle wave has period `2n-2`. -/
theorem pingPongIndex_period (n k : Nat) :
    pingPongIndex n (k + (2 * n - 2)) = pingPongIndex n k := by
  unfold pingPongIndex
  rw [Nat.add_mod_right]

/-- The sequence of claim C2 for four slides: the indices after 0 to 7 advances
are 0, 1, 2, 3, 2, 1, 0, 1. -/
theorem pingPong_four_slides_indices :
    (List.range 8).map (fun k =>
        match playNextSlides (List.replicate k 0)
            (freshShow LoopType.PING_PONG 0 [10, 11, 12, 13]) with
        | Outcome.ok sk => some sk.currentSlideIndex
        | Outcome.fault _ => none)
      = [some 0, some 1, some 2, some 3, some 2, some 1, some 0, some 1] := by
  decide

/-! ## The erase loop of `update` -/

/-- The erase loop started at offset `n` keeps the first `n` entries and removes
the completed slides from the rest. -/
theorem purgeLoop_eq (f : SlideRef → Bool) (m : Nat) :
    ∀ (v : List SlideRef) (n : Nat), v.length - n ≤ m →
      purgeLoop f v (n : Int) = v.take n ++ (v.drop n).filter (fun r => !f r) := by
  induction m with
  | zero =>
    intro v n h
    rw [purgeLoop, dif_neg (by omega)]
    rw [List.take_of_length_le (by omega), List.drop_of_length_le (by omega)]
    simp
  | succ m ih =>
    intro v n h
    by_cases hn : n < v.length
    · rw [purgeLoop, dif_pos (by omega)]
      have hget : v.get ⟨(n : Int).toNat, by omega⟩ = v[n] := by
        simp [List.get_eq_getElem]
      rw [hget]
      have hdrop : v.drop n = v[n] :: v.drop (n + 1) := List.drop_eq_getElem_cons hn
      by_cases hc : f v[n] = true
      · rw [if_pos hc]
        have hidx : ((n : Int) - 1 + 1) = (n : Int) := by omega
        have hnat : (n : Int).toNat = n := by omega
        rw [hidx, hnat]
        have hlen : (v.eraseIdx n).length = v.length - 1 := by
          rw [List.length_eraseIdx]; simp [hn]
        rw [ih (v.eraseIdx n) n (by omega)]
        have herase : v.eraseIdx n = v.take n ++ v.drop (n + 1) :=
          List.eraseIdx_eq_take_drop_succ v n
        have htl : (v.take n).length = n := by rw [List.length_take]; omega
        have h1 : (v.eraseIdx n).take n = v.take n := by
          rw [herase, List.take_left' htl]
        have h2 : (v.eraseIdx n).drop n = v.drop (n + 1) := by
          rw [herase, List.drop_left' htl]
        rw [h1, h2, hdrop, List.filter_cons_of_neg (by simp [hc])]
      · rw [if_neg hc]
        have hcast : ((n : Int) + 1) = ((n + 1 : Nat) : Int) := by omega
        rw [hcast, ih v (n + 1) (by omega)]
        have htake : v.take (n + 1) = v.take n ++ [v[n]] := by
          rw [List.take_succ, List.getElem?_eq_getElem hn]; rfl
        rw [htake, hdrop, List.filter_cons_of_pos (by simp [hc])]
        simp only [List.append_assoc, List.singleton_append]
    · rw [purgeLoop, dif_neg (by omega)]
      rw [List.take_of_length_le (by omega), List.drop_of_length_le (by omega)]
      simp

/-- The erase loop of `update`, run from `begin()`, is the removal of every
completed slide. -/
theorem purgeLoop_eq_filter (f : SlideRef → Bool) (v : List SlideRef) :
    purgeLoop f v 0 = v.filter (fun r => !f r) := by
  have h := purgeLoop_eq f v.length v 0 (by omega)
  simpa using h

/-! ## What the update pass leaves alone -/

theorem keepsPlayback_refl (s : State) : KeepsPlayback s s := ⟨rfl, rfl⟩

theorem keepsPlayback_trans {a b c : State} (h1 : KeepsPlayback a b)
    (h2 : KeepsPlayback b c) : KeepsPlayback a c :=
  ⟨h2.1.trans h1.1, h2.2.trans h1.2⟩

theorem loopSwitch_keepsPlayback (s s1 : State)
    (h : loopSwitch s = Switch.returned s1 ∨ loopSwitch s = Switch.passed s1) :
    KeepsPlayback s s1 := by
  unfold loopSwitch at h
  cases hT : s.settings.loopType <;> simp only [hT] at h <;> split_ifs at h <;>
    rcases h with h | h <;> cases h <;>
    simp [KeepsPlayback, notifyWillLoop, completeCount]

theorem playNextSlide_keepsPlayback (now : Nat) (s s1 : State)
    (h : playNextSlide now s = Outcome.ok s1) : KeepsPlayback s s1 := by
  unfold playNextSlide at h
  cases hsw : loopSwitch s with
  | returned s2 =>
    rw [hsw] at h
    cases h
    exact loopSwitch_keepsPlayback s _ (Or.inl hsw)
  | passed s2 =>
    rw [hsw] at h
    have h2 := loopSwitch_keepsPlayback s s2 (Or.inr hsw)
    simp only [enqueueCurrent] at h
    cases hr : slideAt s2.slides s2.currentSlideIndex with
    | none => rw [hr] at h; cases h
    | some r =>
      rw [hr] at h
      cases h
      refine keepsPlayback_trans h2 ?_
      simp [KeepsPlayback, enqueueSlide, completeCount]

theorem dispatch_keepsPlayback (sender : SlideRef) (events : List SlideEvent) :
    ∀ s s1 : State, dispatch sender events s = Outcome.ok s1 → KeepsPlayback s s1 := by
  induction events with
  | nil =>
    intro s s1 h
    cases h
    exact keepsPlayback_refl s
  | cons e rest ih =>
    intro s s1 h
    cases e with
    | stateChanged state now =>
      simp only [dispatch, slideStateChanged] at h
      split_ifs at h
      · cases hn : playNextSlide now s with
        | ok s2 =>
          rw [hn] at h
          exact keepsPlayback_trans (playNextSlide_keepsPlayback now s s2 hn) (ih s2 s1 h)
        | fault f => rw [hn] at h; cases h
      · exact ih s s1 h
    | complete =>
      simp only [dispatch] at h
      refine keepsPlayback_trans ?_ (ih _ s1 h)
      simp [KeepsPlayback, slideComplete, completeCount]

theorem updateSlide_keepsPlayback (deltaTime : Nat) (slide : SlideRef) (v : Visit)
    (s s1 : State) (h : updateSlide deltaTime slide v s = Outcome.ok s1) :
    KeepsPlayback s s1 := by
  unfold updateSlide at h
  refine keepsPlayback_trans ?_ (dispatch_keepsPlayback slide v.events _ s1 h)
  cases v.activeTransition <;> simp [KeepsPlayback, completeCount]

theorem updatePass_keepsPlayback (deltaTime : Nat) (visits : Nat → Visit)
    (l : List SlideRef) :
    ∀ (k : Nat) (s s1 : State), updatePass deltaTime visits k l s = Outcome.ok s1 →
      KeepsPlayback s s1 := by
  induction l with
  | nil =>
    intro k s s1 h
    cases h
    exact keepsPlayback_refl s
  | cons slide rest ih =>
    intro k s s1 h
    simp only [updatePass] at h
    cases hu : updateSlide deltaTime slide (visits k) s with
    | ok s2 =>
      rw [hu] at h
      simp only [Outcome.andThen] at h
      split_ifs at h
      exact keepsPlayback_trans (updateSlide_keepsPlayback _ _ _ s s2 hu) (ih (k + 1) s2 s1 h)
    | fault f => rw [hu] at h; cases h

theorem beginUpdate_keepsPlayback (nowTime : Nat) (visits : Nat → Visit) (s p : State)
    (h : beginUpdate nowTime visits s = Outcome.ok p) : KeepsPlayback s p := by
  unfold beginUpdate at h
  have h1 := updatePass_keepsPlayback _ _ _ _ _ _ h
  exact ⟨h1.1, h1.2⟩

/-! ## Claims on the update tick -/

theorem loopSwitch_slides (s s1 : State)
    (h : loopSwitch s = Switch.returned s1 ∨ loopSwitch s = Switch.passed s1) :
    s1.slides = s.slides := by
  unfold loopSwitch at h
  cases hT : s.settings.loopType <;> simp only [hT] at h <;> split_ifs at h <;>
    rcases h with h | h <;> cases h <;> rfl

theorem playNextSlide_returns (now : Nat) (s : State) (hN : 2 ≤ s.slides.length) :
    ∃ s1, playNextSlide now s = Outcome.ok s1 ∧ s1.slides = s.slides := by
  unfold playNextSlide
  cases hsw : loopSwitch s with
  | returned s2 => exact ⟨s2, rfl, loopSwitch_slides s s2 (Or.inl hsw)⟩
  | passed s2 =>
    have hsl := loopSwitch_slides s s2 (Or.inr hsw)
    obtain ⟨h0, h1⟩ := loopSwitch_passed_range s s2 hN hsw
    obtain ⟨r, hr⟩ := slideAt_of_range s2.slides s2.currentSlideIndex h0 h1
    exact ⟨enqueueSlide r now s2, by simp [enqueueCurrent, hr], hsl⟩

theorem dispatch_returns (sender : SlideRef) (events : List SlideEvent) :
    ∀ s : State, 2 ≤ s.slides.length →
      ∃ s1, dispatch sender events s = Outcome.ok s1 ∧ s1.slides = s.slides := by
  induction events with
  | nil => intro s _; exact ⟨s, rfl, rfl⟩
  | cons e rest ih =>
    intro s hN
    cases e with
    | stateChanged state now =>
      simp only [dispatch, slideStateChanged]
      split_ifs
      · obtain ⟨s2, h2, hsl⟩ := playNextSlide_returns now s hN
        obtain ⟨s1, h1, hsl1⟩ := ih s2 (by rw [hsl]; exact hN)
        exact ⟨s1, by rw [h2]; exact h1, by rw [hsl1, hsl]⟩
      · exact ih s hN
    | complete =>
      simp only [dispatch]
      exact ih (slideComplete sender s) hN

/-! ## Claims on the index used at an enqueue -/

/-- Claim C1 fails on the code: under `PING_PONG` with a single slide, the advance
from index 0 in direction `+1` passes the switch with `currentSlideIndex = -1`
(the stored value of `slides.size()-2`), and `playNextSlide` then indexes `slides`
with it. -/
theorem C1_pingPong_one_slide_enqueues_outside :
    ∃ s1, loopSwitch (freshShow LoopType.PING_PONG 0 [10]) = Switch.passed s1
      ∧ s1.currentSlideIndex = -1 ∧ s1.slides.length = 1
      ∧ ¬ (0 ≤ s1.currentSlideIndex ∧ s1.currentSlideIndex < (s1.slides.length : Int))
      ∧ playNextSlide 5 (freshShow LoopType.PING_PONG 0 [10])
          = Outcome.fault (Fault.indexOutOfRange (-1) 1) :=
  ⟨_, rfl, rfl, rfl, by decide, rfl⟩

/-- Claim C6 fails on the code: a `NONE` show with one slide is played; its slide
reaches build-out, so the handler advances past the last slide without an enqueue;
the slide completes and the next tick ends the show; `play()` then reads
`slides[1]` of a one-slide show. -/
theorem C6_play_after_show_ended_reads_outside :
    ((((play 0 0 (freshShow LoopType.NONE 0 [10])).andThen
        (update 100 (fun _ => Visit.mk false [SlideEvent.stateChanged SlideState.BuildOut 100])
          (fun _ => false))).andThen
        (update 200 (fun _ => Visit.mk true [SlideEvent.complete]) (fun _ => true))).holds
      (fun s => s.isPlaying = false ∧ s.activeSlides = [] ∧ s.slides = [10]
        ∧ s.currentSlideIndex = 1
        ∧ play 300 300 s = Outcome.fault (Fault.indexOutOfRange 1 1))) := by
  simp [Outcome.holds, Outcome.andThen, play, update, beginUpdate, finishUpdate, updatePass,
    updateSlide, dispatch, slideStateChanged, slideComplete, playNextSlide, loopSwitch,
    enqueueCurrent, enqueueSlide, slideAt, freshShow, purgeLoop_eq_filter]

/-! ## Pause and play -/

/-- Claim C5, amended. For a playing show whose `currentSlideIndex` is inside the
slide list, `pause()` followed by `play()` returns; it keeps the entries of
`activeSlides` in place and appends `slides[currentSlideIndex]` once more, after
calling `start` on it; no other slide is started, `runningTime` is reset to 0,
`lastTime` is set to the clock, and nothing else changes. -/
theorem C5_pause_play_enqueues_current_again (s : State) (now startTime : Nat)
    (r : SlideRef) (hPlaying : s.isPlaying = true)
    (hr : slideAt s.slides s.currentSlideIndex = some r) :
    play now startTime (pause s)
      = Outcome.ok { s with runningTime := 0, lastTime := now,
                            activeSlides := s.activeSlides ++ [r],
                            trace := s.trace ++ [Effect.start r startTime] } := by
  simp [play, pause, enqueueCurrent, enqueueSlide, hr, hPlaying]

/-- Instance of C5 (amended): a show playing its first slide. -/
theorem C5_pause_play_witness :
    play 7 8 (pause (playingShow LoopType.NORMAL 0 [10, 11] 10 3))
      = Outcome.ok { playingShow LoopType.NORMAL 0 [10, 11] 10 3 with
          runningTime := 0, lastTime := 7,
          activeSlides := (playingShow LoopType.NORMAL 0 [10, 11] 10 3).activeSlides ++ [10],
          trace := (playingShow LoopType.NORMAL 0 [10, 11] 10 3).trace
            ++ [Effect.start 10 8] } :=
  C5_pause_play_enqueues_current_again (playingShow LoopType.NORMAL 0 [10, 11] 10 3) 7 8 10
    rfl rfl

/-- Claim C5 as stated fails: a show playing slide 10 is paused and played again;
slide 10 is then twice in `activeSlides` and has been started a second time. -/
theorem C5_pause_play_counterexample :
    ∃ s1, play 7 8 (pause (playingShow LoopType.NORMAL 0 [10, 11] 10 3)) = Outcome.ok s1
      ∧ (playingShow LoopType.NORMAL 0 [10, 11] 10 3).activeSlides = [10]
      ∧ s1.activeSlides = [10, 10]
      ∧ s1.activeSlides ≠ (playingShow LoopType.NORMAL 0 [10, 11] 10 3).activeSlides
      ∧ s1.trace = [Effect.start 10 3, Effect.start 10 8] :=
  ⟨_, rfl, rfl, rfl, by decide, rfl⟩

/-! ## The resize switch -/

/-- Claim C7. For a slide of positive width and height, the size `addSlide` gives
it is the size the resolver of the specification gives for the effective option,
whatever the canvas. -/
theorem C7_addSlide_size_is_resolver (cw ch : ℚ) (slide : SlideInfo) (s : State)
    (hw : 0 < slide.width) (hh : 0 < slide.height) :
    (addSlide cw ch slide s).2
      = some (specResolve (effectiveOption slide.resizeOption s.settings) cw ch
          slide.width slide.height) := by
  have hw0 : slide.width ≠ 0 := ne_of_gt hw
  have hh0 : slide.height ≠ 0 := ne_of_gt hh
  unfold addSlide
  cases effectiveOption slide.resizeOption s.settings <;>
    simp only [resizeSwitch, specResolve, divide] <;>
    first
    | rfl
    | (split <;> simp [hw0, hh0])

/-- Instance of C7: a 200 by 100 slide on a 100 by 100 canvas becomes 100 by 50
under `FitProportionally`. -/
theorem C7_addSlide_size_witness :
    (addSlide 100 100 (SlideInfo.mk 10 ResizeOptions.FitProportionally 200 100)
        (freshShow LoopType.NONE 0 [])).2
      = some (specResolve (effectiveOption ResizeOptions.FitProportionally
          (freshShow LoopType.NONE 0 []).settings) 100 100 200 100) :=
  C7_addSlide_size_is_resolver 100 100
    (SlideInfo.mk 10 ResizeOptions.FitProportionally 200 100)
    (freshShow LoopType.NONE 0 []) (by norm_num) (by norm_num)

/-- The two sizes named in claim C7, computed by the resize switch. -/
theorem resizeSwitch_200_by_100 :
    resizeSwitch ResizeOptions.FitProportionally 100 100 200 100 = some (100, 50)
    ∧ resizeSwitch ResizeOptions.FillProportionally 100 100 200 100 = some (200, 100) := by
  constructor <;> norm_num [resizeSwitch, divide]

/-- Claim C8 as stated fails: a slide 200 wide and 0 high under
`FitProportionally` on a 100 by 100 canvas is added to `slides` and sized to 100
by 0; nothing is rejected. -/
theorem C8_zero_height_counterexample :
    (addSlide 100 100 (SlideInfo.mk 10 ResizeOptions.FitProportionally 200 0)
        (freshShow LoopType.NONE 0 [])).1.slides = [10]
    ∧ (addSlide 100 100 (SlideInfo.mk 10 ResizeOptions.FitProportionally 200 0)
        (freshShow LoopType.NONE 0 [])).2 = some (100, 0) := by
  constructor
  · rfl
  · have hOpt : effectiveOption ResizeOptions.FitProportionally
        (freshShow LoopType.NONE 0 []).settings = ResizeOptions.FitProportionally := rfl
    simp only [addSlide, hOpt]
    norm_num [resizeSwitch, divide]

/-- Claim C8, amended. A slide whose width or height is zero (and neither
negative) is not rejected and no check of its dimensions is made: it is appended
to `slides` and nothing else of the show changes, under every option. In exact
rational arithmetic, under `FitProportionally`, a slide with exactly one zero
dimension gets a size with a zero component: `(cw, 0)` when its height is zero and
`(0, ch)` when its width is zero. Nothing is said of the cases in which the selected
ratio has a zero divisor. -/
theorem C8_addSlide_never_rejects (cw ch : ℚ) (slide : SlideInfo) (s : State)
    (hw : 0 ≤ slide.width) (hh : 0 ≤ slide.height)
    (hZero : slide.width = 0 ∨ slide.height = 0) :
    (addSlide cw ch slide s).1 = { s with slides := s.slides ++ [slide.ref] }
    ∧ (effectiveOption slide.resizeOption s.settings = ResizeOptions.FitProportionally →
        ¬ (slide.width = 0 ∧ slide.height = 0) →
        ∃ w h, (addSlide cw ch slide s).2 = some (w, h)
          ∧ (w = 0 ∨ h = 0)
          ∧ (slide.height = 0 → w = cw ∧ h = 0)
          ∧ (slide.width = 0 → w = 0 ∧ h = ch)) := by
  refine ⟨rfl, ?_⟩
  intro hOpt hnot
  unfold addSlide
  rw [hOpt]
  rcases hZero with hz | hz
  · have hpos : 0 < slide.height :=
      lt_of_le_of_ne hh (fun h0 => hnot ⟨hz, h0.symm⟩)
    have hne : slide.height ≠ 0 := ne_of_gt hpos
    have hngt : ¬ (0 : ℚ) > slide.height := not_lt.mpr hh
    refine ⟨0, ch, ?_, Or.inl rfl, fun h0 => absurd h0 hne, fun _ => ⟨rfl, rfl⟩⟩
    simp [resizeSwitch, divide, hz, hngt, hne, mul_div_cancel₀]
  · have hpos : 0 < slide.width :=
      lt_of_le_of_ne hw (fun h0 => hnot ⟨h0.symm, hz⟩)
    have hne : slide.width ≠ 0 := ne_of_gt hpos
    refine ⟨cw, 0, ?_, Or.inr rfl, fun _ => ⟨rfl, rfl⟩, fun h0 => absurd h0 hne⟩
    simp [resizeSwitch, divide, hz, hpos, hne, mul_div_cancel₀]

/-- Instance of C8 (amended): a slide 200 wide and 0 high under
`FitProportionally`. -/
theorem C8_addSlide_never_rejects_witness :
    ∃ w h, (addSlide 100 100 (SlideInfo.mk 10 ResizeOptions.FitProportionally 200 0)
          (freshShow LoopType.NONE 0 [])).2 = some (w, h)
      ∧ (w = 0 ∨ h = 0)
      ∧ ((SlideInfo.mk 10 ResizeOptions.FitProportionally 200 0).height = 0 →
          w = 100 ∧ h = 0)
      ∧ ((SlideInfo.mk 10 ResizeOptions.FitProportionally 200 0).width = 0 →
          w = 0 ∧ h = 100) :=
  (C8_addSlide_never_rejects 100 100
    (SlideInfo.mk 10 ResizeOptions.FitProportionally 200 0)
    (freshShow LoopType.NONE 0 []) (by norm_num) (by norm_num) (Or.inr rfl)).2 rfl
    (by norm_num)

/-! ## The `NONE` loop and the end of the show -/

theorem loopSwitch_settings (s s1 : State)
    (h : loopSwitch s = Switch.returned s1 ∨ loopSwitch s = Switch.passed s1) :
    s1.settings = s.settings := by
  unfold loopSwitch at h
  cases hT : s.settings.loopType <;> simp only [hT] at h <;> split_ifs at h <;>
    rcases h with h | h <;> cases h <;> rfl

/-- Under `NONE` an advance whose new index is at or past the end of the slide
list returns from the switch with nothing but the index changed. -/
theorem loopSwitch_none_past_end (s : State) (hT : s.settings.loopType = LoopType.NONE)
    (hge : (s.slides.length : Int) ≤ s.currentSlideIndex + s.direction) :
    loopSwitch s
      = Switch.returned { s with currentSlideIndex := s.currentSlideIndex + s.direction } := by
  unfold loopSwitch
  simp [hT, hge]

/-- Under `NONE` every index that passes the switch is inside the slide list. -/
theorem loopSwitch_none_passed_range (s s1 : State)
    (hT : s.settings.loopType = LoopType.NONE) (h : loopSwitch s = Switch.passed s1) :
    0 ≤ s1.currentSlideIndex ∧ s1.currentSlideIndex < (s1.slides.length : Int) := by
  unfold loopSwitch at h
  simp only [hT] at h
  split_ifs at h with hc
  cases h
  simp only
  omega

/-- Under `NONE` an advance always returns. -/
theorem playNextSlide_none_returns (now : Nat) (s : State)
    (hT : s.settings.loopType = LoopType.NONE) :
    ∃ s1, playNextSlide now s = Outcome.ok s1 ∧ s1.settings = s.settings := by
  unfold playNextSlide
  cases hsw : loopSwitch s with
  | returned s2 => exact ⟨s2, rfl, loopSwitch_settings s s2 (Or.inl hsw)⟩
  | passed s2 =>
    obtain ⟨h0, h1⟩ := loopSwitch_none_passed_range s s2 hT hsw
    obtain ⟨r, hr⟩ := slideAt_of_range s2.slides s2.currentSlideIndex h0 h1
    exact ⟨enqueueSlide r now s2, by simp [enqueueCurrent, hr],
      loopSwitch_settings s s2 (Or.inr hsw)⟩

theorem dispatch_none_returns (sender : SlideRef) (events : List SlideEvent) :
    ∀ s : State, s.settings.loopType = LoopType.NONE →
      ∃ s1, dispatch sender events s = Outcome.ok s1 ∧ s1.settings = s.settings := by
  induction events with
  | nil => intro s _; exact ⟨s, rfl, rfl⟩
  | cons e rest ih =>
    intro s hT
    cases e with
    | stateChanged state now =>
      simp only [dispatch, slideStateChanged]
      split_ifs
      · obtain ⟨s2, h2, hs⟩ := playNextSlide_none_returns now s hT
        obtain ⟨s1, h1, hs1⟩ := ih s2 (by rw [hs]; exact hT)
        exact ⟨s1, by rw [h2]; exact h1, by rw [hs1, hs]⟩
      · exact ih s hT
    | complete =>
      simp only [dispatch]
      exact ih (slideComplete sender s) hT

/-- Under `NONE` an upward advance at or past the last index returns with the
index stepped and nothing else changed; in particular nothing is enqueued. -/
theorem playNextSlide_none_past_end (now : Nat) (s : State)
    (hT : s.settings.loopType = LoopType.NONE) (hDir : s.direction = 1)
    (hge : (s.slides.length : Int) ≤ s.currentSlideIndex + 1) :
    playNextSlide now s
      = Outcome.ok { s with currentSlideIndex := s.currentSlideIndex + 1 } := by
  unfold playNextSlide
  rw [loopSwitch_none_past_end s hT (by rw [hDir]; exact hge), hDir]

/-- The handlers of one slide, run on a `NONE` show that stands at or past its
last index going upwards: they return, enqueue nothing, and leave the show at or
past its last index. -/
theorem dispatch_none_past_end (sender : SlideRef) (events : List SlideEvent) :
    ∀ s : State, s.settings.loopType = LoopType.NONE → s.direction = 1 →
      (s.slides.length : Int) ≤ s.currentSlideIndex + 1 →
      ∃ s1, dispatch sender events s = Outcome.ok s1
        ∧ s1.activeSlides = s.activeSlides
        ∧ s1.settings.loopType = LoopType.NONE ∧ s1.direction = 1
        ∧ (s1.slides.length : Int) ≤ s1.currentSlideIndex + 1 := by
  induction events with
  | nil => intro s hT hD hI; exact ⟨s, rfl, rfl, hT, hD, hI⟩
  | cons e rest ih =>
    intro s hT hD hI
    cases e with
    | stateChanged state now =>
      simp only [dispatch, slideStateChanged]
      split_ifs
      · rw [playNextSlide_none_past_end now s hT hD hI]
        obtain ⟨s1, h1, ha, hT1, hD1, hI1⟩ :=
          ih { s with currentSlideIndex := s.currentSlideIndex + 1 } hT hD
            (by simp only; omega)
        exact ⟨s1, h1, ha, hT1, hD1, hI1⟩
      · exact ih s hT hD hI
    | complete =>
      simp only [dispatch]
      exact ih (slideComplete sender s) hT hD hI

theorem updatePass_none_past_end (deltaTime : Nat) (visits : Nat → Visit)
    (l : List SlideRef) :
    ∀ (k : Nat) (s : State), s.settings.loopType = LoopType.NONE → s.direction = 1 →
      (s.slides.length : Int) ≤ s.currentSlideIndex + 1 →
      ∃ s1, updatePass deltaTime visits k l s = Outcome.ok s1 := by
  induction l with
  | nil => intro k s _ _ _; exact ⟨s, rfl⟩
  | cons slide rest ih =>
    intro k s hT hD hI
    simp only [updatePass, updateSlide]
    obtain ⟨s2, h2, ha, hT2, hD2, hI2⟩ := dispatch_none_past_end slide (visits k).events
      { (if (visits k).activeTransition
          then { s with trace := s.trace ++ [Effect.transitionUpdate slide deltaTime] }
          else s) with
        trace := (if (visits k).activeTransition
          then { s with trace := s.trace ++ [Effect.transitionUpdate slide deltaTime] }
          else s).trace ++ [Effect.slideUpdate slide deltaTime] }
      (by split <;> exact hT) (by split <;> exact hD) (by split <;> exact hI)
    have ha2 : s2.activeSlides = s.activeSlides := by
      rw [ha]; split <;> rfl
    obtain ⟨s1, h1⟩ := ih (k + 1) s2 hT2 hD2 hI2
    refine ⟨s1, ?_⟩
    rw [h2]
    simp only [Outcome.andThen]
    rw [if_pos ha2]
    exact h1

/-- The update pass of a tick returns on a `NONE` show that stands at or past its
last index going upwards: no handler can enqueue there. -/
theorem beginUpdate_none_past_end (nowTime : Nat) (visits : Nat → Visit) (s : State)
    (hT : s.settings.loopType = LoopType.NONE) (hDir : s.direction = 1)
    (hge : (s.slides.length : Int) ≤ s.currentSlideIndex + 1) :
    ∃ p, beginUpdate nowTime visits s = Outcome.ok p := by
  unfold beginUpdate
  exact updatePass_none_past_end ((nowTime + 2 ^ 64 - s.lastTime) % 2 ^ 64)
    visits s.activeSlides 0
    { s with deltaTime := (nowTime + 2 ^ 64 - s.lastTime) % 2 ^ 64,
             runningTime := (s.runningTime + (nowTime + 2 ^ 64 - s.lastTime) % 2 ^ 64) % 2 ^ 64,
             lastTime := nowTime } hT hDir hge

/-- After the erase loop and the completion check, a show that was playing is
stopped exactly when no active slide is left. -/
theorem finishUpdate_stops_iff (isSlideComplete : SlideRef → Bool) (p : State)
    (hp : p.isPlaying = true) :
    (finishUpdate isSlideComplete p).isPlaying = false
      ↔ p.activeSlides.filter (fun r => !isSlideComplete r) = [] := by
  unfold finishUpdate
  simp only [purgeLoop_eq_filter]
  split
  · rename_i h
    simp only [true_iff]
    exact List.length_eq_zero.mp h.1
  · rename_i h
    constructor
    · intro hf
      have hf2 : p.isPlaying = false := hf
      rw [hp] at hf2
      exact absurd hf2 (by decide)
    · intro he
      exfalso
      apply h
      show (List.filter (fun r => !isSlideComplete r) p.activeSlides).length = 0
        ∧ p.isPlaying = true
      rw [he]
      exact ⟨rfl, hp⟩

/-- Claim C11. Under `NONE` with `N` slides and direction `+1` (any `N`, so in
particular `N ≥ 1`), a
`playNextSlide` call made at the last index `N-1` returns with nothing but
`currentSlideIndex` changed (to `N`): `activeSlides` and the trace are as before, so
no slide is enqueued or started and nothing is notified, and `isPlaying`,
`direction` and `loopCount` are as before. A later tick of the playing show
returns, and it turns `isPlaying` false exactly when no active slide is left after
its erase loop. -/
theorem C11_none_advance_past_last (s : State) (now : Nat)
    (hT : s.settings.loopType = LoopType.NONE)
    (hDir : s.direction = 1) (hIdx : s.currentSlideIndex = (s.slides.length : Int) - 1) :
    playNextSlide now s
        = Outcome.ok { s with currentSlideIndex := (s.slides.length : Int) }
    ∧ ∀ (nowTime : Nat) (visits : Nat → Visit) (isSlideComplete : SlideRef → Bool),
        s.isPlaying = true →
        ∃ p s1,
          beginUpdate nowTime visits { s with currentSlideIndex := (s.slides.length : Int) }
            = Outcome.ok p
          ∧ update nowTime visits isSlideComplete
              { s with currentSlideIndex := (s.slides.length : Int) } = Outcome.ok s1
          ∧ (s1.isPlaying = false
              ↔ p.activeSlides.filter (fun r => !isSlideComplete r) = []) := by
  have hsum : s.currentSlideIndex + s.direction = (s.slides.length : Int) := by
    rw [hIdx, hDir]; omega
  constructor
  · unfold playNextSlide
    rw [loopSwitch_none_past_end s hT (by omega), hsum]
  · intro nowTime visits isSlideComplete hPlaying
    obtain ⟨p, hp⟩ := beginUpdate_none_past_end nowTime visits
      { s with currentSlideIndex := (s.slides.length : Int) } hT hDir
      (by simp only; omega)
    have hk := beginUpdate_keepsPlayback _ _ _ p hp
    have hpl : p.isPlaying = true := by rw [hk.1]; exact hPlaying
    refine ⟨p, finishUpdate isSlideComplete p, hp, ?_, finishUpdate_stops_iff _ p hpl⟩
    unfold update
    rw [if_neg (by simp [hPlaying]), hp]
    rfl

/-- Instance of C11: a playing one-slide `NONE` show at its last index. -/
theorem C11_none_advance_witness :
    playNextSlide 9 (playingShow LoopType.NONE 0 [10] 10 0)
        = Outcome.ok { playingShow LoopType.NONE 0 [10] 10 0 with
            currentSlideIndex := ((playingShow LoopType.NONE 0 [10] 10 0).slides.length : Int) } :=
  (C11_none_advance_past_last (playingShow LoopType.NONE 0 [10] 10 0) 9 rfl rfl rfl).1

/-! ## `playSlide` and `playPrevSlide` -/

/-- Claim C12. For every loop type and direction and every `i` inside the slide
list, `playSlide(i)` returns; it sets `currentSlideIndex` to `i`, starts
`slides[i]` and appends it to `activeSlides`, and changes nothing else: direction
and `loopCount` are kept and the trace gains the `start` call only, whatever
`currentSlideIndex` was before. -/
theorem C12_playSlide_in_range (s : State) (i : Int) (now : Nat)
    (h0 : 0 ≤ i) (h1 : i < (s.slides.length : Int)) :
    ∃ r, slideAt s.slides i = some r
      ∧ playSlide i now s
        = Outcome.ok { s with currentSlideIndex := i,
                              activeSlides := s.activeSlides ++ [r],
                              trace := s.trace ++ [Effect.start r now] } := by
  obtain ⟨r, hr⟩ := slideAt_of_range s.slides i h0 h1
  refine ⟨r, hr, ?_⟩
  unfold playSlide
  have hstep := playNextSlide_inRange now
    { s with currentSlideIndex := i - s.direction } r
    (by simpa using hr)
  rw [hstep]
  simp [enqueueSlide]

/-- Instance of C12: a `PING_PONG` show running downwards is sent to slide 2. -/
theorem C12_playSlide_witness :
    ∃ r, slideAt ({ freshShow LoopType.PING_PONG 0 [10, 11, 12] with
            direction := -1, currentSlideIndex := 0 } : State).slides 2 = some r
      ∧ playSlide 2 5 { freshShow LoopType.PING_PONG 0 [10, 11, 12] with
            direction := -1, currentSlideIndex := 0 }
        = Outcome.ok { ({ freshShow LoopType.PING_PONG 0 [10, 11, 12] with
              direction := -1, currentSlideIndex := 0 } : State) with
            currentSlideIndex := 2,
            activeSlides := ({ freshShow LoopType.PING_PONG 0 [10, 11, 12] with
              direction := -1, currentSlideIndex := 0 } : State).activeSlides ++ [r],
            trace := ({ freshShow LoopType.PING_PONG 0 [10, 11, 12] with
              direction := -1, currentSlideIndex := 0 } : State).trace
                ++ [Effect.start r 5] } :=
  C12_playSlide_in_range { freshShow LoopType.PING_PONG 0 [10, 11, 12] with
      direction := -1, currentSlideIndex := 0 } 2 5 (by decide) (by decide)

/-- Claim C19. For every loop type and direction `d`: if `currentSlideIndex - d`
is inside the slide list, `playPrevSlide` returns, sets `currentSlideIndex` to
`currentSlideIndex - d`, enqueues that slide and changes nothing else; and from an
index `c` inside the slide list with `c + d` inside it too, `playNextSlide`
followed by `playPrevSlide` both return and leave `currentSlideIndex` at `c`. -/
theorem C19_playPrevSlide_steps_back (s : State) (t1 t2 : Nat) :
    (0 ≤ s.currentSlideIndex - s.direction →
      s.currentSlideIndex - s.direction < (s.slides.length : Int) →
      ∃ r, slideAt s.slides (s.currentSlideIndex - s.direction) = some r
        ∧ playPrevSlide t1 s
          = Outcome.ok { s with currentSlideIndex := s.currentSlideIndex - s.direction,
                                activeSlides := s.activeSlides ++ [r],
                                trace := s.trace ++ [Effect.start r t1] })
    ∧ (0 ≤ s.currentSlideIndex → s.currentSlideIndex < (s.slides.length : Int) →
      0 ≤ s.currentSlideIndex + s.direction →
      s.currentSlideIndex + s.direction < (s.slides.length : Int) →
      ∃ s1 s2, playNextSlide t1 s = Outcome.ok s1 ∧ playPrevSlide t2 s1 = Outcome.ok s2
        ∧ s1.currentSlideIndex = s.currentSlideIndex + s.direction
        ∧ s2.currentSlideIndex = s.currentSlideIndex
        ∧ s2.direction = s.direction ∧ s2.loopCount = s.loopCount) := by
  have hprev : ∀ (t : Nat) (u : State), 0 ≤ u.currentSlideIndex - u.direction →
      u.currentSlideIndex - u.direction < (u.slides.length : Int) →
      ∃ r, slideAt u.slides (u.currentSlideIndex - u.direction) = some r
        ∧ playPrevSlide t u
          = Outcome.ok { u with currentSlideIndex := u.currentSlideIndex - u.direction,
                                activeSlides := u.activeSlides ++ [r],
                                trace := u.trace ++ [Effect.start r t] } := by
    intro t u h0 h1
    obtain ⟨r, hr⟩ := slideAt_of_range u.slides _ h0 h1
    refine ⟨r, hr, ?_⟩
    unfold playPrevSlide
    have hidx : u.currentSlideIndex - u.direction * 2 + u.direction
        = u.currentSlideIndex - u.direction := by ring
    have hstep := playNextSlide_inRange t
      { u with currentSlideIndex := u.currentSlideIndex - u.direction * 2 } r
      (by simpa [hidx] using hr)
    rw [hstep]
    simp [enqueueSlide, hidx]
  refine ⟨hprev t1 s, ?_⟩
  intro hc0 hc1 hn0 hn1
  obtain ⟨r, hr⟩ := slideAt_of_range s.slides _ hn0 hn1
  have hnext := playNextSlide_inRange t1 s r hr
  obtain ⟨r2, -, hback⟩ := hprev t2
    (enqueueSlide r t1 { s with currentSlideIndex := s.currentSlideIndex + s.direction })
    (by simp [enqueueSlide]; omega) (by simp [enqueueSlide]; omega)
  refine ⟨_, _, hnext, hback, rfl, ?_, rfl, rfl⟩
  simp [enqueueSlide]

/-- Instance of C19: a `NORMAL` show at index 1 of three slides steps back to
index 0, and an advance followed by a step back returns to index 1. -/
theorem C19_playPrevSlide_witness :
    ∃ s1 s2,
      playNextSlide 5 { freshShow LoopType.NORMAL 0 [10, 11, 12] with currentSlideIndex := 1 }
        = Outcome.ok s1
      ∧ playPrevSlide 6 s1 = Outcome.ok s2
      ∧ s1.currentSlideIndex
          = ({ freshShow LoopType.NORMAL 0 [10, 11, 12] with
                currentSlideIndex := 1 } : State).currentSlideIndex
            + ({ freshShow LoopType.NORMAL 0 [10, 11, 12] with
                currentSlideIndex := 1 } : State).direction
      ∧ s2.currentSlideIndex
          = ({ freshShow LoopType.NORMAL 0 [10, 11, 12] with
                currentSlideIndex := 1 } : State).currentSlideIndex
      ∧ s2.direction
          = ({ freshShow LoopType.NORMAL 0 [10, 11, 12] with
                currentSlideIndex := 1 } : State).direction
      ∧ s2.loopCount
          = ({ freshShow LoopType.NORMAL 0 [10, 11, 12] with
                currentSlideIndex := 1 } : State).loopCount :=
  (C19_playPrevSlide_steps_back
    { freshShow LoopType.NORMAL 0 [10, 11, 12] with currentSlideIndex := 1 } 5 6).2
    (by decide) (by decide) (by decide) (by decide)

/-! ## `play`, `pause` and idle ticks -/

/-- What `play()` does where it is defined. On a playing show it changes nothing.
On a show that is not playing, with `currentSlideIndex` inside the slide list, it
sets `runningTime` to 0, `lastTime` to the clock and `isPlaying` to true, starts
`slides[currentSlideIndex]` and appends it to `activeSlides`, one entry, and
changes nothing else. -/
theorem play_effect (s : State) (now startTime : Nat) :
    (s.isPlaying = true → play now startTime s = Outcome.ok s)
    ∧ (s.isPlaying = false → 0 ≤ s.currentSlideIndex →
        s.currentSlideIndex < (s.slides.length : Int) →
        ∃ r, slideAt s.slides s.currentSlideIndex = some r
          ∧ play now startTime s
            = Outcome.ok { s with runningTime := 0, lastTime := now, isPlaying := true,
                                  activeSlides := s.activeSlides ++ [r],
                                  trace := s.trace ++ [Effect.start r startTime] }) := by
  constructor
  · intro hp
    simp [play, hp]
  · intro hp h0 h1
    obtain ⟨r, hr⟩ := slideAt_of_range s.slides _ h0 h1
    exact ⟨r, hr, by simp [play, hp, enqueueCurrent, enqueueSlide, hr]⟩

/-- With `currentSlideIndex` outside the slide list, `play()` on a show that is
not playing reads `slides[currentSlideIndex]` all the same. -/
theorem play_outside (s : State) (now startTime : Nat) (hp : s.isPlaying = false)
    (h : ¬ (0 ≤ s.currentSlideIndex ∧ s.currentSlideIndex < (s.slides.length : Int))) :
    play now startTime s
      = Outcome.fault (Fault.indexOutOfRange s.currentSlideIndex s.slides.length) := by
  simp [play, hp, enqueueCurrent, slideAt_none_of_not_range s.slides s.currentSlideIndex h]

/-- Claim C16 fails on the code: a `NONE` show of one slide has played to its end
(the slide reached build-out, the advance left `currentSlideIndex` at 1 without an
enqueue, the slide completed and the tick stopped the show). The show is not
playing, and `play()` does not append `slides[currentSlideIndex]`: there is no
such slide, and the read of `slides[1]` is outside the vector. -/
theorem C16_play_not_playing_reads_outside :
    ((((play 0 0 (freshShow LoopType.NONE 0 [10])).andThen
        (update 100 (fun _ => Visit.mk false [SlideEvent.stateChanged SlideState.BuildOut 100])
          (fun _ => false))).andThen
        (update 200 (fun _ => Visit.mk true [SlideEvent.complete]) (fun _ => true))).holds
      (fun s => s.isPlaying = false
        ∧ ¬ (0 ≤ s.currentSlideIndex ∧ s.currentSlideIndex < (s.slides.length : Int))
        ∧ slideAt s.slides s.currentSlideIndex = none
        ∧ ∀ now startTime, play now startTime s
            = Outcome.fault (Fault.indexOutOfRange 1 1))) := by
  simp [Outcome.holds, Outcome.andThen, play, update, beginUpdate, finishUpdate, updatePass,
    updateSlide, dispatch, slideStateChanged, slideComplete, playNextSlide, loopSwitch,
    enqueueCurrent, enqueueSlide, slideAt, freshShow, purgeLoop_eq_filter]

/-- A tick on a show that is not playing does nothing. -/
theorem update_not_playing (nowTime : Nat) (visits : Nat → Visit)
    (isSlideComplete : SlideRef → Bool) (s : State) (h : s.isPlaying = false) :
    update nowTime visits isSlideComplete s = Outcome.ok s := by
  simp [update, h]

/-- Claim C17. After `pause()`, any sequence of `update` calls returns and leaves
the state exactly as `pause()` left it, whatever the clock, the slides and the
active list: the timers, `activeSlides`, `currentSlideIndex`, `direction` and
`loopCount` are unchanged and the trace has gained nothing, so no slide was updated
or purged and nothing was notified. -/
theorem C17_updates_after_pause (s : State) (ticks : List Tick) :
    updates ticks (pause s) = Outcome.ok (pause s) := by
  induction ticks with
  | nil => rfl
  | cons tick rest ih =>
    simp only [updates]
    rw [update_not_playing _ _ _ (pause s) rfl]
    exact ih

/-! ## The option the resize switch runs on -/

/-- Claim C13. The size `addSlide` gives a slide is the one the resize switch
computes for the option of the slide when that option is not `NoResize`, and for
the option of the show when it is; the option of the show is used in no other
case. In particular a `Native` slide keeps its size in a show whose option is
`Fit`. -/
theorem C13_addSlide_option (cw ch : ℚ) (slide : SlideInfo) (s : State) :
    (slide.resizeOption ≠ ResizeOptions.NoResize →
      effectiveOption slide.resizeOption s.settings = slide.resizeOption
      ∧ (addSlide cw ch slide s).2
          = resizeSwitch slide.resizeOption cw ch slide.width slide.height)
    ∧ (slide.resizeOption = ResizeOptions.NoResize →
      effectiveOption slide.resizeOption s.settings = s.settings.resizeOption
      ∧ (addSlide cw ch slide s).2
          = resizeSwitch s.settings.resizeOption cw ch slide.width slide.height)
    ∧ (effectiveOption slide.resizeOption s.settings ≠ slide.resizeOption →
      slide.resizeOption = ResizeOptions.NoResize)
    ∧ (slide.resizeOption = ResizeOptions.Native →
      s.settings.resizeOption = ResizeOptions.Fit →
      (addSlide cw ch slide s).2 = some (slide.width, slide.height)) := by
  refine ⟨?_, ?_, ?_, ?_⟩
  · intro h
    simp [addSlide, effectiveOption, h]
  · intro h
    simp [addSlide, effectiveOption, h]
  · intro h
    by_contra hne
    exact h (by simp [effectiveOption, hne])
  · intro h _
    simp [addSlide, effectiveOption, h, resizeSwitch]

/-- Instance of C13: a `Native` slide in a `Fit` show keeps its size. -/
theorem C13_addSlide_option_witness :
    (addSlide 100 100 (SlideInfo.mk 10 ResizeOptions.Native 200 50)
        { freshShow LoopType.NONE 0 [] with
          settings := { (freshShow LoopType.NONE 0 []).settings with
            resizeOption := ResizeOptions.Fit } }).2
      = some ((SlideInfo.mk 10 ResizeOptions.Native 200 50).width,
              (SlideInfo.mk 10 ResizeOptions.Native 200 50).height) :=
  (C13_addSlide_option 100 100 (SlideInfo.mk 10 ResizeOptions.Native 200 50)
    { freshShow LoopType.NONE 0 [] with
      settings := { (freshShow LoopType.NONE 0 []).settings with
        resizeOption := ResizeOptions.Fit } }).2.2.2 rfl rfl

/-! ## Setting the show up -/

/-- Claim C15. When `settings.width ≤ 0` or `settings.height ≤ 0`, the set-up of
the show returns false having done nothing but store the settings: the trace is
as before, so the frame buffer has not been allocated, and `slides` and
`activeSlides` are as before, whatever lies at the folder path. -/
theorem C15_invalid_dimensions (settings : Settings) (folder : FolderContents) (s : State)
    (h : settings.width ≤ 0 ∨ settings.height ≤ 0) :
    initializeShow settings folder s = ({ s with settings := settings }, false)
    ∧ (initializeShow settings folder s).2 = false
    ∧ (initializeShow settings folder s).1.slides = s.slides
    ∧ (initializeShow settings folder s).1.activeSlides = s.activeSlides
    ∧ (initializeShow settings folder s).1.trace = s.trace := by
  have hres : initializeShow settings folder s = ({ s with settings := settings }, false) := by
    unfold initializeShow
    simp only [if_pos h]
  rw [hres]
  exact ⟨rfl, rfl, rfl, rfl, rfl⟩

/-- Instance of C15: width 0, with a folder that holds an image. -/
theorem C15_invalid_dimensions_witness :
    initializeShow { (freshShow LoopType.NONE 0 []).settings with
          width := 0, slidesFolderPath := "slides" }
        (FolderContents.files [FolderFile.image (SlideInfo.mk 10 ResizeOptions.Fit 200 100)])
        (freshShow LoopType.NONE 0 [])
      = ({ freshShow LoopType.NONE 0 [] with
            settings := { (freshShow LoopType.NONE 0 []).settings with
              width := 0, slidesFolderPath := "slides" } }, false) :=
  (C15_invalid_dimensions
    { (freshShow LoopType.NONE 0 []).settings with width := 0, slidesFolderPath := "slides" }
    (FolderContents.files [FolderFile.image (SlideInfo.mk 10 ResizeOptions.Fit 200 100)])
    (freshShow LoopType.NONE 0 []) (Or.inl (by decide))).1

/-- With valid dimensions the set-up allocates the frame buffer and loads the
folder: one image gives a show of one slide and the result true. -/
theorem initializeShow_loads_folder :
    (initializeShow { (freshShow LoopType.NONE 0 []).settings with slidesFolderPath := "slides" }
        (FolderContents.files [FolderFile.image (SlideInfo.mk 10 ResizeOptions.Fit 200 100)])
        (freshShow LoopType.NONE 0 [])).2 = true
    ∧ (initializeShow { (freshShow LoopType.NONE 0 []).settings with slidesFolderPath := "slides" }
        (FolderContents.files [FolderFile.image (SlideInfo.mk 10 ResizeOptions.Fit 200 100)])
        (freshShow LoopType.NONE 0 [])).1.slides = [10]
    ∧ (initializeShow { (freshShow LoopType.NONE 0 []).settings with slidesFolderPath := "slides" }
        (FolderContents.files [FolderFile.image (SlideInfo.mk 10 ResizeOptions.Fit 200 100)])
        (freshShow LoopType.NONE 0 [])).1.trace = [Effect.allocate 100 100] := by
  refine ⟨?_, ?_, ?_⟩ <;>
    simp [initializeShow, createFromFolderContents, addFolderFile, addSlide, freshShow]

/-! ## Aspect ratio under the proportional options -/

/-- Claim C18. For a slide of positive width `sw` and height `sh` and any canvas
`cw` by `ch`, under either proportional option `addSlide` gives the slide a size
`(w, h)` with `w * sh = h * sw`; under `FitProportionally` `w = cw` when `sw > sh`
and `h = ch` otherwise; under `FillProportionally` `h = ch` when `sw > sh` and
`w = cw` otherwise. -/
theorem C18_proportional_sizes (cw ch : ℚ) (slide : SlideInfo) (s : State)
    (hw : 0 < slide.width) (hh : 0 < slide.height) :
    (effectiveOption slide.resizeOption s.settings = ResizeOptions.FitProportionally →
      ∃ w h, (addSlide cw ch slide s).2 = some (w, h)
        ∧ w * slide.height = h * slide.width
        ∧ (slide.width > slide.height → w = cw)
        ∧ (¬ slide.width > slide.height → h = ch))
    ∧ (effectiveOption slide.resizeOption s.settings = ResizeOptions.FillProportionally →
      ∃ w h, (addSlide cw ch slide s).2 = some (w, h)
        ∧ w * slide.height = h * slide.width
        ∧ (slide.width > slide.height → h = ch)
        ∧ (¬ slide.width > slide.height → w = cw)) := by
  have hw0 : slide.width ≠ 0 := ne_of_gt hw
  have hh0 : slide.height ≠ 0 := ne_of_gt hh
  constructor
  · intro hOpt
    unfold addSlide
    rw [hOpt]
    by_cases hgt : slide.width > slide.height
    · refine ⟨slide.width * (cw / slide.width), slide.height * (cw / slide.width),
        ?_, by ring, fun _ => mul_div_cancel₀ cw hw0, fun hn => absurd hgt hn⟩
      simp [resizeSwitch, divide, hgt, hw0]
    · refine ⟨slide.width * (ch / slide.height), slide.height * (ch / slide.height),
        ?_, by ring, fun hp => absurd hp hgt, fun _ => mul_div_cancel₀ ch hh0⟩
      simp [resizeSwitch, divide, hgt, hh0]
  · intro hOpt
    unfold addSlide
    rw [hOpt]
    by_cases hgt : slide.width > slide.height
    · refine ⟨slide.width * (ch / slide.height), slide.height * (ch / slide.height),
        ?_, by ring, fun _ => mul_div_cancel₀ ch hh0, fun hn => absurd hgt hn⟩
      simp [resizeSwitch, divide, hgt, hh0]
    · refine ⟨slide.width * (cw / slide.width), slide.height * (cw / slide.width),
        ?_, by ring, fun hp => absurd hp hgt, fun _ => mul_div_cancel₀ cw hw0⟩
      simp [resizeSwitch, divide, hgt, hw0]

/-- Instance of C18: a 200 by 100 slide with option `FillProportionally`. -/
theorem C18_proportional_sizes_witness :
    ∃ w h, (addSlide 100 100 (SlideInfo.mk 10 ResizeOptions.FillProportionally 200 100)
          (freshShow LoopType.NONE 0 [])).2 = some (w, h)
      ∧ w * (SlideInfo.mk 10 ResizeOptions.FillProportionally 200 100).height
          = h * (SlideInfo.mk 10 ResizeOptions.FillProportionally 200 100).width
      ∧ ((SlideInfo.mk 10 ResizeOptions.FillProportionally 200 100).width
            > (SlideInfo.mk 10 ResizeOptions.FillProportionally 200 100).height → h = 100)
      ∧ (¬ (SlideInfo.mk 10 ResizeOptions.FillProportionally 200 100).width
            > (SlideInfo.mk 10 ResizeOptions.FillProportionally 200 100).height → w = 100) :=
  (C18_proportional_sizes 100 100 (SlideInfo.mk 10 ResizeOptions.FillProportionally 200 100)
    (freshShow LoopType.NONE 0 []) (by norm_num) (by norm_num)).2 rfl

/-! ## Shows without a loop limit -/

/-- Outside `NONE`, the switch returns only when the incremented loop count
equals the loop limit. -/
theorem loopSwitch_returned_limit (s s1 : State)
    (hT : s.settings.loopType ≠ LoopType.NONE) (h : loopSwitch s = Switch.returned s1) :
    s.loopCount + 1 = s.settings.numLoops := by
  unfold loopSwitch at h
  cases hT2 : s.settings.loopType
  · exact absurd hT2 hT
  all_goals
    simp only [hT2] at h
    split_ifs at h with h1 h2 h3 h4
    all_goals first
      | exact h2
      | exact h4

/-- What passes the switch has the active list it came with and a loop count
that has not gone down. -/
theorem loopSwitch_passed_frame (s s1 : State) (h : loopSwitch s = Switch.passed s1) :
    s1.activeSlides = s.activeSlides ∧ s.loopCount ≤ s1.loopCount := by
  unfold loopSwitch at h
  cases hT : s.settings.loopType <;> simp only [hT] at h <;> split_ifs at h <;>
    cases h <;> simp [notifyWillLoop]

/-- One advance of a `NORMAL` or `PING_PONG` show with `numLoops = 0`, a loop
count that is not negative and at least two slides: it enqueues a slide. -/
theorem playNextSlide_unbounded (t : Nat) (s : State)
    (hT : s.settings.loopType = LoopType.NORMAL ∨ s.settings.loopType = LoopType.PING_PONG)
    (hN : 2 ≤ s.slides.length) (hLoops : s.settings.numLoops = 0)
    (hCount : 0 ≤ s.loopCount) :
    ∃ s1 r, playNextSlide t s = Outcome.ok s1
      ∧ slideAt s.slides s1.currentSlideIndex = some r
      ∧ s1.activeSlides = s.activeSlides ++ [r]
      ∧ s1.settings = s.settings ∧ s1.slides = s.slides ∧ 0 ≤ s1.loopCount := by
  have hne : s.settings.loopType ≠ LoopType.NONE := by
    rcases hT with h | h <;> rw [h] <;> decide
  unfold playNextSlide
  cases hsw : loopSwitch s with
  | returned s2 =>
    have := loopSwitch_returned_limit s s2 hne hsw
    omega
  | passed s2 =>
    have hsl := loopSwitch_slides s s2 (Or.inr hsw)
    have hs := loopSwitch_settings s s2 (Or.inr hsw)
    obtain ⟨hact, hlc⟩ := loopSwitch_passed_frame s s2 hsw
    obtain ⟨h0, h1⟩ := loopSwitch_passed_range s s2 hN hsw
    obtain ⟨r, hr⟩ := slideAt_of_range s2.slides s2.currentSlideIndex h0 h1
    refine ⟨enqueueSlide r t s2, r, by simp [enqueueCurrent, hr], ?_, ?_, hs, hsl, ?_⟩
    · rw [← hsl]; exact hr
    · simp [enqueueSlide, hact]
    · simp only [enqueueSlide]; omega

/-- With the loop count taken as an unbounded integer: with `numLoops = 0`, a loop
count that is not negative, at least two slides and loop type `NORMAL` or
`PING_PONG`, from any index and direction, every sequence of `playNextSlide` calls
returns with one slide enqueued per call, and the call after it enqueues a slide
again. -/
theorem playNextSlides_unbounded (s : State) (ts : List Nat)
    (hT : s.settings.loopType = LoopType.NORMAL ∨ s.settings.loopType = LoopType.PING_PONG)
    (hN : 2 ≤ s.slides.length) (hLoops : s.settings.numLoops = 0)
    (hCount : 0 ≤ s.loopCount) :
    ∃ sk, playNextSlides ts s = Outcome.ok sk
      ∧ sk.activeSlides.length = s.activeSlides.length + ts.length
      ∧ ∀ t, ∃ s1 r, playNextSlide t sk = Outcome.ok s1
          ∧ slideAt sk.slides s1.currentSlideIndex = some r
          ∧ s1.activeSlides = sk.activeSlides ++ [r] := by
  have hrun : ∀ (us : List Nat) (u : State),
      (u.settings.loopType = LoopType.NORMAL ∨ u.settings.loopType = LoopType.PING_PONG) →
      2 ≤ u.slides.length → u.settings.numLoops = 0 → 0 ≤ u.loopCount →
      ∃ uk, playNextSlides us u = Outcome.ok uk
        ∧ uk.activeSlides.length = u.activeSlides.length + us.length
        ∧ uk.settings = u.settings ∧ uk.slides = u.slides ∧ 0 ≤ uk.loopCount := by
    intro us
    induction us with
    | nil => intro u _ _ _ hc; exact ⟨u, rfl, rfl, rfl, rfl, hc⟩
    | cons t rest ih =>
      intro u hT2 hN2 hL2 hC2
      obtain ⟨u1, r, hstep, -, hact, hs, hsl, hlc⟩ := playNextSlide_unbounded t u hT2 hN2 hL2 hC2
      obtain ⟨uk, hk, hlen, hsk, hslk, hlck⟩ := ih u1 (by rw [hs]; exact hT2)
        (by rw [hsl]; exact hN2) (by rw [hs]; exact hL2) hlc
      refine ⟨uk, ?_, ?_, by rw [hsk, hs], by rw [hslk, hsl], hlck⟩
      · simp only [playNextSlides, hstep, Outcome.andThen]; exact hk
      · rw [hlen, hact]; simp; omega
  obtain ⟨sk, hk, hlen, hs, hsl, hlc⟩ := hrun ts s hT hN hLoops hCount
  refine ⟨sk, hk, hlen, fun t => ?_⟩
  obtain ⟨s1, r, hstep, hr, hact, -, -, -⟩ := playNextSlide_unbounded t sk
    (by rw [hs]; exact hT) (by rw [hsl]; exact hN) (by rw [hs]; exact hLoops) hlc
  exact ⟨s1, r, hstep, hr, hact⟩

/-! ## `PING_PONG` with a loop limit -/

theorem loopSwitch_pingPong_stop_top (s : State)
    (hT : s.settings.loopType = LoopType.PING_PONG)
    (hge : (s.slides.length : Int) ≤ s.currentSlideIndex + s.direction)
    (heq : s.loopCount + 1 = s.settings.numLoops) :
    loopSwitch s = Switch.returned
      { s with currentSlideIndex := s.currentSlideIndex + s.direction,
               loopCount := s.loopCount + 1 } := by
  unfold loopSwitch
  simp [hT, hge, heq]

theorem loopSwitch_pingPong_stop_bottom (s : State)
    (hT : s.settings.loopType = LoopType.PING_PONG)
    (hlt : s.currentSlideIndex + s.direction < 0)
    (heq : s.loopCount + 1 = s.settings.numLoops) :
    loopSwitch s = Switch.returned
      { s with currentSlideIndex := s.currentSlideIndex + s.direction,
               loopCount := s.loopCount + 1 } := by
  have hge : ¬ ((s.slides.length : Int) ≤ s.currentSlideIndex + s.direction) := by omega
  unfold loopSwitch
  simp [hT, hge, hlt, heq]

/-- The loop count of a leg is the number of boundary crossings so far: crossing
number `j` is made by call `j * (n - 1) + 1`. -/
theorem pingPongLeg_loopCount (n m : Nat) (i d lc : Int)
    (h : PingPongLeg n m i d lc) : lc = (((m - 1) / (n - 1) : Nat) : Int) := by
  obtain ⟨j, q, hm, hq, hq0, hlc, -⟩ := h
  rw [hlc]
  congr 1
  by_cases hz : q = 0
  · have hj := hq0 hz
    subst hj
    subst hz
    simp at hm
    subst hm
    simp
  · have hm1 : m - 1 = (q - 1) + j * (n - 1) := by omega
    rw [hm1, Nat.add_mul_div_right _ _ (by omega : 0 < n - 1),
      Nat.div_eq_of_lt (by omega : q - 1 < n - 1)]
    omega

/-- One advance of a `PING_PONG` show before its `k`-th boundary crossing: it
enqueues a slide and the show stands one step further along its leg. -/
theorem playNextSlide_pingPong_leg (t : Nat) (s : State) (m k : Nat)
    (hT : s.settings.loopType = LoopType.PING_PONG) (hN : 2 ≤ s.slides.length)
    (hLoops : s.settings.numLoops = (k : Int)) (hm : m < k * (s.slides.length - 1))
    (hleg : PingPongLeg s.slides.length m s.currentSlideIndex s.direction s.loopCount) :
    ∃ s1 r, playNextSlide t s = Outcome.ok s1
      ∧ s1.activeSlides = s.activeSlides ++ [r]
      ∧ s1.settings = s.settings ∧ s1.slides = s.slides
      ∧ PingPongLeg s.slides.length (m + 1) s1.currentSlideIndex s1.direction
          s1.loopCount := by
  obtain ⟨j, q, hmq, hq, hq0, hlc, hcase⟩ := hleg
  by_cases hlast : q < s.slides.length - 1
  · obtain ⟨r, hr⟩ := slideAt_of_range s.slides (s.currentSlideIndex + s.direction)
      (by rcases hcase with ⟨-, hd, hi⟩ | ⟨-, hd, hi⟩ <;> omega)
      (by rcases hcase with ⟨-, hd, hi⟩ | ⟨-, hd, hi⟩ <;> omega)
    refine ⟨_, r, playNextSlide_inRange t s r hr, rfl, rfl, rfl,
      ⟨j, q + 1, by omega, by omega, by omega, hlc, ?_⟩⟩
    rcases hcase with ⟨hp, hd, hi⟩ | ⟨hp, hd, hi⟩
    · left
      refine ⟨hp, hd, ?_⟩
      show s.currentSlideIndex + s.direction = ((q + 1 : Nat) : Int)
      omega
    · right
      refine ⟨hp, hd, ?_⟩
      show s.currentSlideIndex + s.direction = (s.slides.length : Int) - 1 - ((q + 1 : Nat) : Int)
      omega
  · have hqe : q = s.slides.length - 1 := by omega
    have hsucc : (j + 1) * (s.slides.length - 1)
        = j * (s.slides.length - 1) + (s.slides.length - 1) := Nat.succ_mul _ _
    have hjk : j + 1 < k := by
      apply Nat.lt_of_mul_lt_mul_right (a := s.slides.length - 1)
      omega
    have hne : s.loopCount + 1 ≠ s.settings.numLoops := by
      rw [hlc, hLoops]; omega
    rcases hcase with ⟨hp, hd, hi⟩ | ⟨hp, hd, hi⟩
    · have hge : (s.slides.length : Int) ≤ s.currentSlideIndex + s.direction := by omega
      obtain ⟨r, hr⟩ := slideAt_of_range s.slides (sizeMinus s.slides.length 2)
        (by unfold sizeMinus; omega) (by unfold sizeMinus; omega)
      refine ⟨enqueueSlide r t (notifyWillLoop
        { s with currentSlideIndex := sizeMinus s.slides.length 2, direction := -1,
                 loopCount := s.loopCount + 1 }), r, ?_, rfl, rfl, rfl,
        ⟨j + 1, 1, by omega, by omega, by omega, ?_, Or.inr ⟨by omega, rfl, ?_⟩⟩⟩
      · unfold playNextSlide
        rw [loopSwitch_pingPong_top s hT hge hne]
        simp [enqueueCurrent, notifyWillLoop, hr]
      · show s.loopCount + 1 = ((j + 1 : Nat) : Int)
        omega
      · show sizeMinus s.slides.length 2 = (s.slides.length : Int) - 1 - ((1 : Nat) : Int)
        unfold sizeMinus
        omega
    · have hlt : s.currentSlideIndex + s.direction < 0 := by omega
      obtain ⟨r, hr⟩ := slideAt_of_range s.slides 1 (by omega) (by omega)
      refine ⟨enqueueSlide r t (notifyWillLoop
        { s with currentSlideIndex := 1, direction := 1,
                 loopCount := s.loopCount + 1 }), r, ?_, rfl, rfl, rfl,
        ⟨j + 1, 1, by omega, by omega, by omega, ?_, Or.inl ⟨by omega, rfl, ?_⟩⟩⟩
      · unfold playNextSlide
        rw [loopSwitch_pingPong_bottom s hT hlt hne]
        simp [enqueueCurrent, notifyWillLoop, hr]
      · show s.loopCount + 1 = ((j + 1 : Nat) : Int)
        omega
      · show (1 : Int) = ((1 : Nat) : Int)
        rfl

/-- The `k`-th boundary crossing of a `PING_PONG` show with `numLoops = k`: the
advance returns from the switch; nothing is enqueued and nothing notified. -/
theorem playNextSlide_pingPong_limit (t : Nat) (s : State) (k : Nat)
    (hT : s.settings.loopType = LoopType.PING_PONG) (hN : 2 ≤ s.slides.length)
    (hk : 1 ≤ k) (hLoops : s.settings.numLoops = (k : Int))
    (hleg : PingPongLeg s.slides.length (k * (s.slides.length - 1)) s.currentSlideIndex
      s.direction s.loopCount) :
    playNextSlide t s = Outcome.ok
      { s with currentSlideIndex := s.currentSlideIndex + s.direction,
               loopCount := s.loopCount + 1 }
    ∧ s.loopCount + 1 = (k : Int) := by
  obtain ⟨j, q, hmq, hq, hq0, hlc, hcase⟩ := hleg
  have hjk : j + 1 = k ∧ q = s.slides.length - 1 := by
    have hsucc : (j + 1) * (s.slides.length - 1)
        = j * (s.slides.length - 1) + (s.slides.length - 1) := Nat.succ_mul _ _
    have hkpos : s.slides.length - 1 ≤ k * (s.slides.length - 1) :=
      Nat.le_mul_of_pos_left _ (by omega)
    have hqpos : 0 < q := by
      by_contra hz
      have hj := hq0 (by omega)
      subst hj
      omega
    have h1 : j < k := by
      by_contra hge
      have := Nat.mul_le_mul_right (s.slides.length - 1) (Nat.le_of_not_lt hge)
      omega
    have h2 : k ≤ j + 1 := by
      by_contra hlt
      have := Nat.mul_le_mul_right (s.slides.length - 1) (by omega : j + 2 ≤ k)
      have h3 : (j + 2) * (s.slides.length - 1)
          = j * (s.slides.length - 1) + 2 * (s.slides.length - 1) := Nat.add_mul _ _ _
      omega
    have hke : k = j + 1 := by omega
    subst hke
    exact ⟨rfl, by omega⟩
  have heq : s.loopCount + 1 = s.settings.numLoops := by
    rw [hlc, hLoops]; omega
  refine ⟨?_, by rw [hlc]; omega⟩
  unfold playNextSlide
  rcases hcase with ⟨hp, hd, hi⟩ | ⟨hp, hd, hi⟩
  · rw [loopSwitch_pingPong_stop_top s hT (by omega) heq]
  · rw [loopSwitch_pingPong_stop_bottom s hT (by omega) heq]

/-- The state of a `PING_PONG` show with `numLoops = k` after any number of
advances up to `k * (N - 1)`, from index 0 upwards. -/
theorem playNextSlides_pingPong_legs (s : State) (k : Nat)
    (hT : s.settings.loopType = LoopType.PING_PONG) (hN : 2 ≤ s.slides.length)
    (hLoops : s.settings.numLoops = (k : Int)) (hIdx : s.currentSlideIndex = 0)
    (hDir : s.direction = 1) (hCount : s.loopCount = 0) (ts : List Nat) :
    ts.length ≤ k * (s.slides.length - 1) →
    ∃ sk, playNextSlides ts s = Outcome.ok sk
      ∧ sk.settings = s.settings ∧ sk.slides = s.slides
      ∧ sk.activeSlides.length = s.activeSlides.length + ts.length
      ∧ PingPongLeg s.slides.length ts.length sk.currentSlideIndex sk.direction
          sk.loopCount := by
  induction ts using List.reverseRecOn with
  | nil =>
    intro _
    exact ⟨s, rfl, rfl, rfl, rfl, 0, 0, by simp, by omega, fun _ => rfl,
      by simpa using hCount, Or.inl ⟨rfl, hDir, by simpa using hIdx⟩⟩
  | append_singleton ts t ih =>
    intro hlen
    rw [List.length_append, List.length_singleton] at hlen
    obtain ⟨sk, hrun, hs, hsl, hact, hleg⟩ := ih (by omega)
    rw [← hsl] at hleg
    obtain ⟨s1, r, hstep, hact1, hs1, hsl1, hleg1⟩ :=
      playNextSlide_pingPong_leg t sk ts.length k (by rw [hs]; exact hT)
        (by rw [hsl]; exact hN) (by rw [hs]; exact hLoops) (by rw [hsl]; omega) hleg
    refine ⟨s1, ?_, by rw [hs1, hs], by rw [hsl1, hsl], ?_, ?_⟩
    · rw [playNextSlides_snoc ts t s sk hrun]; exact hstep
    · rw [hact1, List.length_append, List.length_singleton, hact,
        List.length_append, List.length_singleton]
      omega
    · rw [List.length_append, List.length_singleton, ← hsl]
      exact hleg1

/-- Claim C20. Under `PING_PONG` with `N ≥ 2` slides and `numLoops = k ≥ 1`, from
index 0, direction `+1` and `loopCount = 0`: each of the first `k * (N - 1)`
`playNextSlide` calls enqueues a slide, and after `m` of them `loopCount` is the
number of boundary crossings made so far, `(m - 1) / (N - 1)`, the crossings being
the calls `N, 2N - 1, 3N - 2, ..` at the upper and the lower end in turn; call
`k * (N - 1) + 1`, the `k`-th crossing, sets `loopCount` to `k` and is the first
that enqueues nothing. -/
theorem C20_pingPong_stops_at_kth_crossing (s : State) (k : Nat) (ts : List Nat) (t : Nat)
    (hT : s.settings.loopType = LoopType.PING_PONG) (hN : 2 ≤ s.slides.length)
    (hk : 1 ≤ k) (hLoops : s.settings.numLoops = (k : Int))
    (hIdx : s.currentSlideIndex = 0) (hDir : s.direction = 1) (hCount : s.loopCount = 0)
    (hlen : ts.length = k * (s.slides.length - 1)) :
    (∀ m, m ≤ k * (s.slides.length - 1) →
        ∃ sm, playNextSlides (ts.take m) s = Outcome.ok sm
          ∧ sm.activeSlides.length = s.activeSlides.length + m
          ∧ sm.loopCount = (((m - 1) / (s.slides.length - 1) : Nat) : Int))
    ∧ ∃ s1 s2, playNextSlides ts s = Outcome.ok s1 ∧ playNextSlide t s1 = Outcome.ok s2
        ∧ s2.activeSlides = s1.activeSlides ∧ s2.trace = s1.trace
        ∧ s2.loopCount = (k : Int) := by
  constructor
  · intro m hm
    have hlm : (ts.take m).length = m := by rw [List.length_take]; omega
    obtain ⟨sm, hrun, -, -, hact, hleg⟩ :=
      playNextSlides_pingPong_legs s k hT hN hLoops hIdx hDir hCount (ts.take m)
        (by rw [hlm]; exact hm)
    rw [hlm] at hact hleg
    exact ⟨sm, hrun, hact, pingPongLeg_loopCount _ _ _ _ _ hleg⟩
  · obtain ⟨s1, hrun, hs, hsl, -, hleg⟩ :=
      playNextSlides_pingPong_legs s k hT hN hLoops hIdx hDir hCount ts (by omega)
    rw [hlen, ← hsl] at hleg
    obtain ⟨hstop, hcount⟩ := playNextSlide_pingPong_limit t s1 k (by rw [hs]; exact hT)
      (by rw [hsl]; exact hN) hk (by rw [hs]; exact hLoops) hleg
    exact ⟨s1, _, hrun, hstop, rfl, rfl, hcount⟩

/-- Instance of C20: four slides and `numLoops = 2`; six advances enqueue, the
seventh, at the lower end, stops. -/
theorem C20_pingPong_witness :
    (∀ m, m ≤ 2 * ((freshShow LoopType.PING_PONG 2 [10, 11, 12, 13]).slides.length - 1) →
        ∃ sm, playNextSlides (List.take m [1, 2, 3, 4, 5, 6])
              (freshShow LoopType.PING_PONG 2 [10, 11, 12, 13]) = Outcome.ok sm
          ∧ sm.activeSlides.length
              = (freshShow LoopType.PING_PONG 2 [10, 11, 12, 13]).activeSlides.length + m
          ∧ sm.loopCount
              = (((m - 1) / ((freshShow LoopType.PING_PONG 2 [10, 11, 12, 13]).slides.length - 1)
                  : Nat) : Int))
    ∧ ∃ s1 s2, playNextSlides [1, 2, 3, 4, 5, 6]
            (freshShow LoopType.PING_PONG 2 [10, 11, 12, 13]) = Outcome.ok s1
        ∧ playNextSlide 7 s1 = Outcome.ok s2
        ∧ s2.activeSlides = s1.activeSlides ∧ s2.trace = s1.trace
        ∧ s2.loopCount = ((2 : Nat) : Int) :=
  C20_pingPong_stops_at_kth_crossing (freshShow LoopType.PING_PONG 2 [10, 11, 12, 13]) 2
    [1, 2, 3, 4, 5, 6] 7 rfl (by decide) (by decide) rfl rfl rfl rfl rfl

/-- The run of claim C20 for four slides and `numLoops = 2`, evaluated: the
number of active slides and the loop count after 0 to 7 advances. -/
theorem pingPong_limit_two_run :
    (List.range 8).map (fun m =>
        match playNextSlides (List.replicate m 0)
            (freshShow LoopType.PING_PONG 2 [10, 11, 12, 13]) with
        | Outcome.ok sm => some (sm.activeSlides.length, sm.loopCount)
        | Outcome.fault _ => none)
      = [some (0, 0), some (1, 0), some (2, 0), some (3, 0), some (4, 1), some (5, 1),
         some (6, 1), some (6, 2)] := by
  decide

/-! ## When the update pass returns -/

/-- The handlers of a slide that raises no state change to `BuildOut` return and
leave `activeSlides` alone. -/
theorem dispatch_no_buildOut (sender : SlideRef) (events : List SlideEvent)
    (hq : ∀ now, SlideEvent.stateChanged SlideState.BuildOut now ∉ events) :
    ∀ s : State, ∃ s1, dispatch sender events s = Outcome.ok s1
      ∧ s1.activeSlides = s.activeSlides := by
  induction events with
  | nil => intro s; exact ⟨s, rfl, rfl⟩
  | cons e rest ih =>
    have hrest : ∀ now, SlideEvent.stateChanged SlideState.BuildOut now ∉ rest :=
      fun now hmem => hq now (List.mem_cons_of_mem _ hmem)
    intro s
    cases e with
    | stateChanged state now =>
      simp only [dispatch, slideStateChanged]
      split_ifs with hb
      · exact absurd (by rw [hb]; exact List.mem_cons_self _ _) (hq now)
      · exact ih hrest s
    | complete =>
      simp only [dispatch]
      obtain ⟨s1, h1, ha⟩ := ih hrest (slideComplete sender s)
      exact ⟨s1, h1, ha⟩

theorem updatePass_no_buildOut (deltaTime : Nat) (visits : Nat → Visit)
    (hq : ∀ k now, SlideEvent.stateChanged SlideState.BuildOut now ∉ (visits k).events)
    (l : List SlideRef) :
    ∀ (k : Nat) (s : State), ∃ s1, updatePass deltaTime visits k l s = Outcome.ok s1 := by
  induction l with
  | nil => intro k s; exact ⟨s, rfl⟩
  | cons slide rest ih =>
    intro k s
    simp only [updatePass, updateSlide]
    obtain ⟨s2, h2, ha⟩ := dispatch_no_buildOut slide (visits k).events (hq k)
      { (if (visits k).activeTransition
          then { s with trace := s.trace ++ [Effect.transitionUpdate slide deltaTime] }
          else s) with
        trace := (if (visits k).activeTransition
          then { s with trace := s.trace ++ [Effect.transitionUpdate slide deltaTime] }
          else s).trace ++ [Effect.slideUpdate slide deltaTime] }
    have ha2 : s2.activeSlides = s.activeSlides := by
      rw [ha]; split <;> rfl
    obtain ⟨s1, h1⟩ := ih (k + 1) s2
    refine ⟨s1, ?_⟩
    rw [h2]
    simp only [Outcome.andThen]
    rw [if_pos ha2]
    exact h1

/-- The update pass of a tick returns whenever no slide enters `BuildOut` during
it, that is, whenever no handler advances the show. -/
theorem beginUpdate_no_buildOut (nowTime : Nat) (visits : Nat → Visit) (s : State)
    (hq : ∀ k now, SlideEvent.stateChanged SlideState.BuildOut now ∉ (visits k).events) :
    ∃ p, beginUpdate nowTime visits s = Outcome.ok p := by
  unfold beginUpdate
  exact updatePass_no_buildOut _ visits hq s.activeSlides 0 _

/-- A tick in which the first active slide enters `BuildOut` and the handler
enqueues the next slide: the `push_back` happens inside the loop over
`activeSlides`, and the tick has no defined result. -/
theorem update_enqueue_in_pass_faults :
    update 40 (fun _ => Visit.mk false [SlideEvent.stateChanged SlideState.BuildOut 40])
        (fun _ => false) (playingShow LoopType.NORMAL 0 [10, 11] 10 0)
      = Outcome.fault Fault.iteratorInvalidated := by
  decide

/-! ## Shows without a loop limit, on the `int` counter -/

/-- What passes the switch has a loop count at most one above the one it came
with, and a direction that is the old one, `+1` or `-1`. -/
theorem loopSwitch_passed_counter (s s1 : State) (h : loopSwitch s = Switch.passed s1) :
    s1.loopCount ≤ s.loopCount + 1
      ∧ (s1.direction = s.direction ∨ s1.direction = 1 ∨ s1.direction = -1) := by
  unfold loopSwitch at h
  cases hT : s.settings.loopType <;> simp only [hT] at h <;> split_ifs at h <;>
    cases h <;> simp [notifyWillLoop]

/-- One advance, with the `int` arithmetic checked, of a `NORMAL` or `PING_PONG`
show with `numLoops = 0` whose loop count is below `INT_MAX`: it enqueues a
slide, and the show is again in a state from which the next advance is defined. -/
theorem playNextSlideInt_unbounded (t : Nat) (s : State)
    (hT : s.settings.loopType = LoopType.NORMAL ∨ s.settings.loopType = LoopType.PING_PONG)
    (hN : 2 ≤ s.slides.length) (hSize : (s.slides.length : Int) ≤ INT_MAX)
    (hLoops : s.settings.numLoops = 0) (hCount : 0 ≤ s.loopCount)
    (hDir : s.direction = 1 ∨ s.direction = -1)
    (hIdx : fitsInt (s.currentSlideIndex + s.direction))
    (hRoom : s.loopCount + 1 ≤ INT_MAX) :
    ∃ s1 r, playNextSlideInt t s = Outcome.ok s1
      ∧ playNextSlide t s = Outcome.ok s1
      ∧ slideAt s.slides s1.currentSlideIndex = some r
      ∧ s1.activeSlides = s.activeSlides ++ [r]
      ∧ s1.settings = s.settings ∧ s1.slides = s.slides
      ∧ 0 ≤ s1.loopCount ∧ s1.loopCount ≤ s.loopCount + 1
      ∧ (s1.direction = 1 ∨ s1.direction = -1)
      ∧ fitsInt (s1.currentSlideIndex + s1.direction) := by
  have hne : s.settings.loopType ≠ LoopType.NONE := by
    rcases hT with h | h <;> rw [h] <;> decide
  unfold playNextSlideInt playNextSlide
  rw [if_pos hIdx]
  cases hsw : loopSwitch s with
  | returned s2 =>
    have := loopSwitch_returned_limit s s2 hne hsw
    omega
  | passed s2 =>
    have hsl := loopSwitch_slides s s2 (Or.inr hsw)
    have hs := loopSwitch_settings s s2 (Or.inr hsw)
    obtain ⟨hact, hlc⟩ := loopSwitch_passed_frame s s2 hsw
    obtain ⟨hup, hd⟩ := loopSwitch_passed_counter s s2 hsw
    obtain ⟨h0, h1⟩ := loopSwitch_passed_range s s2 hN hsw
    obtain ⟨r, hr⟩ := slideAt_of_range s2.slides s2.currentSlideIndex h0 h1
    have hRoom2 : s.loopCount + 1 ≤ 2 ^ 31 - 1 := hRoom
    have hSize2 : (s.slides.length : Int) ≤ 2 ^ 31 - 1 := hSize
    have hfit : fitsInt s2.loopCount := by
      unfold fitsInt INT_MIN INT_MAX
      constructor <;> omega
    have hd2 : s2.direction = 1 ∨ s2.direction = -1 := by
      rcases hd with h | h | h
      · rw [h]; exact hDir
      · exact Or.inl h
      · exact Or.inr h
    refine ⟨enqueueSlide r t s2, r, ?_, ?_, ?_, ?_, hs, hsl, ?_, ?_, hd2, ?_⟩
    · simp only [hfit, if_true, enqueueCurrent, hr]
    · simp only [enqueueCurrent, hr]
    · rw [← hsl]; exact hr
    · simp [enqueueSlide, hact]
    · simp only [enqueueSlide]; omega
    · simp only [enqueueSlide]; exact hup
    · simp only [enqueueSlide]
      rw [hsl] at h1
      unfold fitsInt INT_MIN INT_MAX
      rcases hd2 with h | h <;> rw [h] <;> constructor <;> omega

end magSlideShow
